import Mathlib

/-!
Publish/subscribe sample (`pubsub.cpp`): embedding and verified properties

The C++ program keeps two kinds of objects: subscribers (classes derived from
`Subscriber`) and messages (classes derived from `MessageBase`).  A message
stores a `vector<Subscriber*>` and a name; `MessageBase::notify()` walks the
vector and calls the virtual `notify(this)` of every entry.

Embedding choices.

* Objects live in two stores inside `World`; a pointer is the index of the
  object in its store (`Subscriber*` is `SubPtr`, `MessageBase*` is `MsgPtr`).
  Dereferencing an index outside the store is undefined behaviour in C++ and is
  reported as `Fault.invalidPointer`.
  The stores only grow: an object keeps its index for the whole process, so the
  index of a subscriber is also its construction number (destruction is not
  modelled; the program never uses an object after its lifetime).
* `unsigned int` is a natural number reduced modulo `2 ^ UINT_BITS`, with
  `UINT_BITS = 32` as on the usual ABIs; the results about identifiers are stated
  in terms of `2 ^ UINT_BITS`.
* A loop is modelled with fuel; `Fault.outOfFuel` is kept apart from the faults of
  the program, and the results state how much fuel suffices.
* `cout` is the list of items inserted into the stream, in order.
* `float` values are carried uninterpreted (`CFloat`); the member
  `OvervoltageAlert::voltageAmount` is not initialised by the constructor, which
  is rendered as `none`.
* The classes declare no copy operations, so the compiler-generated ones are
  part of their interface; they are modelled too (`Subscriber.copyConstruct`,
  `Subscriber.copyAssign`, ...), and the results about identifiers range over
  programs that may use them.
* `World.calls` is a ghost field: the virtual call `(*iter)->notify(this)` logs
  the pair (subscriber pointer, message pointer) before running the body.
-/

namespace PubSub

/-- Width in bits of `unsigned int`. -/
def UINT_BITS : Nat := 32

/-- A C++ `float`, carried as an uninterpreted bit pattern. -/
structure CFloat where
  bits : Nat
deriving DecidableEq, Repr

/-- Pointer `Subscriber*`: index into `World.subs`. -/
abbrev SubPtr := Nat

/-- Pointer `MessageBase*`: index into `World.msgs`. -/
abbrev MsgPtr := Nat

/-- The concrete subscriber classes of the program with their own fields. -/
inductive SubscriberClass where
  | NamedSubscriber (subscriberName : String)
  | VoltageAlertHandler (sendTo : String)
deriving DecidableEq, Repr

/-- A subscriber object: the `Subscriber` base field `ID` and the dynamic class. -/
structure Subscriber where
  ID : Nat
  cls : SubscriberClass
deriving DecidableEq, Repr

/-- The concrete message classes of the program with their own fields. -/
inductive MessageClass where
  | Base
  | TestMessage1
  | TestMessage2
  | DynamicMessage (sMessage : String)
  | TransformerAlert (whichTransformer : String)
  | OvervoltageAlert (whichTransformer : String) (voltageAmount : Option CFloat)
  | UndervoltageAlert (whichTransformer : String)
deriving DecidableEq, Repr

/-- A message object: the `MessageBase` fields and the dynamic class. -/
structure MessageBase where
  subscribers : List SubPtr
  name : String
  cls : MessageClass
deriving DecidableEq, Repr

/-- One insertion into `cout`. -/
inductive OutItem where
  | str (s : String)
  | flt (v : Option CFloat)
  | endl
deriving DecidableEq, Repr

/-- Ways in which an execution leaves defined behaviour (or the model's fuel). -/
inductive Fault where
  | invalidPointer
  | wrongClass
  | outOfFuel
deriving DecidableEq, Repr

/-- Process state. -/
structure World where
  runningID : Nat
  subs : List Subscriber
  msgs : List MessageBase
  cout : List OutItem
  calls : List (SubPtr × MsgPtr)
deriving DecidableEq, Repr

deriving instance DecidableEq for Except

/-- State at process start: `Subscriber::runningID = 0`, no objects, no output. -/
def World.init : World :=
  { runningID := 0, subs := [], msgs := [], cout := [], calls := [] }

/-- Overwrite the message object at address `p`. -/
def World.store (w : World) (p : MsgPtr) (m : MessageBase) : World :=
  { w with msgs := w.msgs.set p m }

/-- A chain of insertions `cout << a << b << ...`. -/
def World.print (w : World) (items : List OutItem) : World :=
  { w with cout := w.cout ++ items }

/-- Subscriber sequence of the message at `p`, if `p` is a live message. -/
def World.subscribersOf (w : World) (p : MsgPtr) : Option (List SubPtr) :=
  (w.msgs[p]?).map (fun m => m.subscribers)

/-- Name of the message at `p`, if `p` is a live message. -/
def World.nameOf (w : World) (p : MsgPtr) : Option String :=
  (w.msgs[p]?).map (fun m => m.name)

/-! ## Subscriber -/

/-- Constructor `Subscriber() { ID = runningID++; }` for an object of class `cls`; returns the
new state and the address of the new object. -/
def Subscriber.construct (w : World) (cls : SubscriberClass) : World × SubPtr :=
  ({ w with
      runningID := (w.runningID + 1) % 2 ^ UINT_BITS
      subs := w.subs ++ [{ ID := w.runningID, cls := cls }] },
   w.subs.length)

/-- Source: `unsigned int getID() const { return ID; }` -/
def Subscriber.getID (s : Subscriber) : Nat := s.ID

/-- Call of `getID()` through a pointer. -/
def World.getID (w : World) (p : SubPtr) : Option Nat :=
  (w.subs[p]?).map Subscriber.getID

/-! ## MessageBase -/

/-- Source: `string getName() { return name; }` -/
def MessageBase.getName (m : MessageBase) : String := m.name

/-- Constructor calls for the message classes of the program. -/
inductive MessageCtor where
  | Base (_name : String)
  | BaseDefault
  | TestMessage1
  | TestMessage2
  | DynamicMessage (_sMessage : String)
  | TransformerAlert (_whichTransformer : String)
  | OvervoltageAlert (_whichTransformer : String)
  | UndervoltageAlert (_whichTransformer : String)
deriving DecidableEq, Repr

/-- Constructor `MessageBase(string _name) : name(_name) {}` seen from a derived class. -/
def MessageBase.base (_name : String) (cls : MessageClass) : MessageBase :=
  { subscribers := [], name := _name, cls := cls }

/-- The object a constructor call builds. -/
def MessageCtor.build : MessageCtor → MessageBase
  | .Base _name => MessageBase.base _name .Base
  | .BaseDefault => MessageBase.base "" .Base
  | .TestMessage1 => MessageBase.base "TestMessage1" .TestMessage1
  | .TestMessage2 => MessageBase.base "TestMessage2" .TestMessage2
  | .DynamicMessage s => MessageBase.base "DynamicMessage" (.DynamicMessage s)
  | .TransformerAlert t => MessageBase.base "Transformer Alert" (.TransformerAlert t)
  | .OvervoltageAlert t =>
      { MessageBase.base "Transformer Alert" (.OvervoltageAlert t none) with
        name := "OvervoltageAlert" }
  | .UndervoltageAlert t =>
      { MessageBase.base "Transformer Alert" (.UndervoltageAlert t) with
        name := "UndervoltageAlert" }

/-- Run a message constructor: the new object is placed at a fresh address. -/
def MessageBase.construct (w : World) (c : MessageCtor) : World × MsgPtr :=
  ({ w with msgs := w.msgs ++ [c.build] }, w.msgs.length)

/-- Source: `void copySubscribers(const MessageBase* from) { subscribers = from->subscribers; }` -/
def MessageBase.copySubscribers (w : World) (this fromMsg : MsgPtr) : Except Fault World :=
  match w.msgs[fromMsg]? with
  | none => .error .invalidPointer
  | some src =>
    match w.msgs[this]? with
    | none => .error .invalidPointer
    | some dst => .ok (w.store this { dst with subscribers := src.subscribers })

/-- Source: `void addSubscriber(Subscriber* pSubscriber) { subscribers.push_back(pSubscriber); }` -/
def MessageBase.addSubscriber (w : World) (this : MsgPtr) (pSubscriber : SubPtr) :
    Except Fault World :=
  match w.msgs[this]? with
  | none => .error .invalidPointer
  | some m => .ok (w.store this { m with subscribers := m.subscribers ++ [pSubscriber] })

/-- Source: `void setName(string _name) { name = _name; }` -/
def MessageBase.setName (w : World) (this : MsgPtr) (_name : String) : Except Fault World :=
  match w.msgs[this]? with
  | none => .error .invalidPointer
  | some m => .ok (w.store this { m with name := _name })

/-! ## Run-time type identification and the virtual `alertText` -/

/-- Cast `dynamic_cast<DynamicMessage*>(pMessage)`: the payload when the cast succeeds. -/
def MessageClass.castDynamicMessage : MessageClass → Option String
  | .DynamicMessage s => some s
  | _ => none

/-- Whether `dynamic_cast<TransformerAlert*>(pMessage)` is non-null. -/
def MessageClass.castTransformerAlert : MessageClass → Bool
  | .TransformerAlert _ => true
  | .OvervoltageAlert _ _ => true
  | .UndervoltageAlert _ => true
  | _ => false

/-- Virtual `alertText()`, dispatched on the dynamic class (classes outside the
`TransformerAlert` hierarchy have no such member; they insert nothing). -/
def TransformerAlert.alertText : MessageClass → List OutItem
  | .TransformerAlert t => [.str "Generic Transformer alert for ", .str t, .endl]
  | .OvervoltageAlert t v =>
      [.str "Over voltage by ", .flt v, .str " alert from Transformer ", .str t, .endl]
  | .UndervoltageAlert t => [.str "Under voltage alert from Transformer ", .str t, .endl]
  | _ => []

/-! ## Concrete subscribers -/

/-- Body of `NamedSubscriber::notify(MessageBase* pMessage)`. -/
def NamedSubscriber.notify (w : World) (subscriberName : String) (pMessage : MsgPtr) :
    Except Fault World :=
  let w1 := w.print [.str "Subscriber(", .str subscriberName, .str ") notify fired:"]
  match w1.msgs[pMessage]? with
  | none => .error .invalidPointer
  | some m =>
    match m.cls.castDynamicMessage with
    | some sMessage =>
        .ok (w1.print [.str "Received dynamic message.  string=", .str sMessage, .endl])
    | none =>
        .ok (w1.print
          [.str "Received polymorphic message.  message name = ", .str m.getName, .endl])

/-- Body of `VoltageAlertHandler::notify(MessageBase* pMessage)`. -/
def VoltageAlertHandler.notify (w : World) (sendTo : String) (pMessage : MsgPtr) :
    Except Fault World :=
  match w.msgs[pMessage]? with
  | none => .error .invalidPointer
  | some m =>
    if m.cls.castTransformerAlert then
      let w1 := w.print [.str "Sending this transformer alert message to: ", .str sendTo, .endl]
      .ok (w1.print (TransformerAlert.alertText m.cls))
    else
      .ok w

/-- The virtual call `p->notify(pMessage)` on a `Subscriber* p`: logs the
invocation in the ghost trace and runs the body of the dynamic class. -/
def Subscriber.notify (w : World) (p : SubPtr) (pMessage : MsgPtr) : Except Fault World :=
  match w.subs[p]? with
  | none => .error .invalidPointer
  | some s =>
    let w1 := { w with calls := w.calls ++ [(p, pMessage)] }
    match s.cls with
    | .NamedSubscriber subscriberName => NamedSubscriber.notify w1 subscriberName pMessage
    | .VoltageAlertHandler sendTo => VoltageAlertHandler.notify w1 sendTo pMessage

/-! ## Publishing -/

/-- The `for` loop of `MessageBase::notify()`; `iter` is the position of the
iterator in `this->subscribers`, re-read from the current state at every
iteration as the C++ loop re-evaluates `subscribers.end()`. -/
def MessageBase.notifyLoop : Nat → World → MsgPtr → Nat → Except Fault World
  | 0, _, _, _ => .error .outOfFuel
  | fuel + 1, w, this, iter =>
    match w.msgs[this]? with
    | none => .error .invalidPointer
    | some m =>
      if iter = m.subscribers.length then
        .ok w
      else
        match m.subscribers[iter]? with
        | none => .error .invalidPointer
        | some p =>
          match Subscriber.notify w p this with
          | .error e => .error e
          | .ok w1 => MessageBase.notifyLoop fuel w1 this (iter + 1)

/-- Source: `void MessageBase::notify()`, the loop started at `subscribers.begin()`. -/
def MessageBase.notify (fuel : Nat) (w : World) (this : MsgPtr) : Except Fault World :=
  MessageBase.notifyLoop fuel w this 0

/-- Source: `void OvervoltageAlert::notify(float _voltageAmount)`; the receiver must be an
`OvervoltageAlert`. -/
def OvervoltageAlert.notify (fuel : Nat) (w : World) (this : MsgPtr) (_voltageAmount : CFloat) :
    Except Fault World :=
  match w.msgs[this]? with
  | none => .error .invalidPointer
  | some m =>
    match m.cls with
    | .OvervoltageAlert t _ =>
        MessageBase.notify fuel
          (w.store this { m with cls := .OvervoltageAlert t (some _voltageAmount) }) this
    | _ => .error .wrongClass

/-! ## Implicitly declared copy operations

Neither `Subscriber` nor `MessageBase` nor any derived class declares a copy
constructor or a copy assignment operator, so the compiler declares them: each
copies the members one by one (a user-declared destructor suppresses only the
move operations, which then fall back to these).  For a subscriber this copies
`ID` and does not touch `Subscriber::runningID`. -/

/-- Both objects are of the same subscriber class. -/
def SubscriberClass.sameClass : SubscriberClass → SubscriberClass → Bool
  | .NamedSubscriber _, .NamedSubscriber _ => true
  | .VoltageAlertHandler _, .VoltageAlertHandler _ => true
  | _, _ => false

/-- Both objects are of the same message class. -/
def MessageClass.sameClass : MessageClass → MessageClass → Bool
  | .Base, .Base => true
  | .TestMessage1, .TestMessage1 => true
  | .TestMessage2, .TestMessage2 => true
  | .DynamicMessage _, .DynamicMessage _ => true
  | .TransformerAlert _, .TransformerAlert _ => true
  | .OvervoltageAlert _ _, .OvervoltageAlert _ _ => true
  | .UndervoltageAlert _, .UndervoltageAlert _ => true
  | _, _ => false

/-- Copy construction `C b(a);` of a subscriber of class `C` from the object at
`src`: the new object has the members of the source, `ID` included, and
`runningID` is not advanced. -/
def Subscriber.copyConstruct (w : World) (src : SubPtr) : Except Fault World :=
  match w.subs[src]? with
  | none => .error .invalidPointer
  | some s => .ok { w with subs := w.subs ++ [s] }

/-- Copy assignment `d = a;` between two subscribers of one class: every member
of the target, `ID` included, is overwritten by the source's. -/
def Subscriber.copyAssign (w : World) (dst src : SubPtr) : Except Fault World :=
  match w.subs[src]? with
  | none => .error .invalidPointer
  | some s =>
    match w.subs[dst]? with
    | none => .error .invalidPointer
    | some d =>
      if s.cls.sameClass d.cls then .ok { w with subs := w.subs.set dst s }
      else .error .wrongClass

/-- Copy assignment through the base class, `static_cast<Subscriber&>(d) = a;`:
only the base member `ID` is overwritten. -/
def Subscriber.copyAssignBase (w : World) (dst src : SubPtr) : Except Fault World :=
  match w.subs[src]? with
  | none => .error .invalidPointer
  | some s =>
    match w.subs[dst]? with
    | none => .error .invalidPointer
    | some d => .ok { w with subs := w.subs.set dst { d with ID := s.ID } }

/-- Copy construction `C m2(m1);` of a message of class `C` from the object at
`src`. -/
def MessageBase.copyConstruct (w : World) (src : MsgPtr) : Except Fault World :=
  match w.msgs[src]? with
  | none => .error .invalidPointer
  | some m => .ok { w with msgs := w.msgs ++ [m] }

/-- Copy assignment `m2 = m1;` between two messages of one class. -/
def MessageBase.copyAssign (w : World) (dst src : MsgPtr) : Except Fault World :=
  match w.msgs[src]? with
  | none => .error .invalidPointer
  | some m =>
    match w.msgs[dst]? with
    | none => .error .invalidPointer
    | some d =>
      if m.cls.sameClass d.cls then .ok (w.store dst m)
      else .error .wrongClass

/-- Copy assignment through the base class, `static_cast<MessageBase&>(m2) = m1;`:
only the base members `subscribers` and `name` are overwritten. -/
def MessageBase.copyAssignBase (w : World) (dst src : MsgPtr) : Except Fault World :=
  match w.msgs[src]? with
  | none => .error .invalidPointer
  | some m =>
    match w.msgs[dst]? with
    | none => .error .invalidPointer
    | some d => .ok (w.store dst { d with subscribers := m.subscribers, name := m.name })

/-- A direct call `pMessage->alertText()` on a message of the `TransformerAlert`
hierarchy. -/
def TransformerAlert.callAlertText (w : World) (pMessage : MsgPtr) : Except Fault World :=
  match w.msgs[pMessage]? with
  | none => .error .invalidPointer
  | some m =>
    if m.cls.castTransformerAlert then .ok (w.print (TransformerAlert.alertText m.cls))
    else .error .wrongClass

/-! ## Programs -/

/-- Statements a client of the classes can execute: the statements of `main`,
and every other way the public interface lets a client create or overwrite an
object (the implicit copy operations) or call a member function that has an
effect.  The members `ID`, `runningID`, `subscribers` and `name` are private, so
nothing else writes them. -/
inductive Stmt where
  | newSubscriber (cls : SubscriberClass)
  | newMessage (c : MessageCtor)
  | addSubscriber (this : MsgPtr) (pSubscriber : SubPtr)
  | copySubscribers (this fromMsg : MsgPtr)
  | setName (this : MsgPtr) (_name : String)
  | notify (this : MsgPtr)
  | notifyVoltage (this : MsgPtr) (_voltageAmount : CFloat)
  | print (items : List OutItem)
  | copySubscriber (src : SubPtr)
  | assignSubscriber (dst src : SubPtr)
  | assignSubscriberBase (dst src : SubPtr)
  | copyMessage (src : MsgPtr)
  | assignMessage (dst src : MsgPtr)
  | assignMessageBase (dst src : MsgPtr)
  | callNotify (p : SubPtr) (pMessage : MsgPtr)
  | callAlertText (pMessage : MsgPtr)
deriving DecidableEq, Repr

/-- Execute one statement. -/
def Stmt.exec (fuel : Nat) (w : World) : Stmt → Except Fault World
  | .newSubscriber cls => .ok (Subscriber.construct w cls).1
  | .newMessage c => .ok (MessageBase.construct w c).1
  | .addSubscriber this p => MessageBase.addSubscriber w this p
  | .copySubscribers this fromMsg => MessageBase.copySubscribers w this fromMsg
  | .setName this n => MessageBase.setName w this n
  | .notify this => MessageBase.notify fuel w this
  | .notifyVoltage this v => OvervoltageAlert.notify fuel w this v
  | .print items => .ok (w.print items)
  | .copySubscriber src => Subscriber.copyConstruct w src
  | .assignSubscriber dst src => Subscriber.copyAssign w dst src
  | .assignSubscriberBase dst src => Subscriber.copyAssignBase w dst src
  | .copyMessage src => MessageBase.copyConstruct w src
  | .assignMessage dst src => MessageBase.copyAssign w dst src
  | .assignMessageBase dst src => MessageBase.copyAssignBase w dst src
  | .callNotify p pMessage => Subscriber.notify w p pMessage
  | .callAlertText pMessage => TransformerAlert.callAlertText w pMessage

/-- Execute a sequence of statements, left to right. -/
def run (fuel : Nat) : World → List Stmt → Except Fault World
  | w, [] => .ok w
  | w, st :: rest =>
    match st.exec fuel w with
    | .error e => .error e
    | .ok w1 => run fuel w1 rest

/-- The items one subscriber inserts into `cout` when notified of message `m`
(closed form of the two `notify` bodies, used to state results). -/
def Subscriber.output (s : Subscriber) (m : MessageBase) : List OutItem :=
  match s.cls with
  | .NamedSubscriber subscriberName =>
    [.str "Subscriber(", .str subscriberName, .str ") notify fired:"] ++
      (match m.cls.castDynamicMessage with
       | some sMessage => [.str "Received dynamic message.  string=", .str sMessage, .endl]
       | none => [.str "Received polymorphic message.  message name = ", .str m.getName, .endl])
  | .VoltageAlertHandler sendTo =>
    if m.cls.castTransformerAlert then
      [.str "Sending this transformer alert message to: ", .str sendTo, .endl] ++
        TransformerAlert.alertText m.cls
    else []

/-- Output of notifying, in order, the subscribers `ps` of message `m`. -/
def outputOf (subs : List Subscriber) (m : MessageBase) : List SubPtr → List OutItem
  | [] => []
  | p :: ps =>
    (match subs[p]? with
     | some s => s.output m
     | none => []) ++ outputOf subs m ps

/-- The invocations a publish of message `this` makes for the entries `ps`. -/
def invocations (this : MsgPtr) (ps : List SubPtr) : List (SubPtr × MsgPtr) :=
  ps.map (fun p => (p, this))

/-- The state after a publish that invoked `ps` on the message `m` at `this`. -/
def World.published (w : World) (this : MsgPtr) (m : MessageBase) (ps : List SubPtr) : World :=
  { w with calls := w.calls ++ invocations this ps, cout := w.cout ++ outputOf w.subs m ps }

/-- Every pointer of `ps` designates a live subscriber of `w`. -/
def World.validSubs (w : World) (ps : List SubPtr) : Prop :=
  ∀ p ∈ ps, p < w.subs.length

instance (w : World) (ps : List SubPtr) : Decidable (w.validSubs ps) :=
  inferInstanceAs (Decidable (∀ p ∈ ps, p < w.subs.length))

/-- The state of `main` after its first three declarations
(`NamedSubscriber sub1("sub1"), sub2("sub2"), sub3("sub3")`): `sub1` is at
address 0, `sub2` at 1, `sub3` at 2. -/
def threeSubs : World :=
  (Subscriber.construct
    (Subscriber.construct
      (Subscriber.construct World.init (.NamedSubscriber "sub1")).1
      (.NamedSubscriber "sub2")).1
    (.NamedSubscriber "sub3")).1

/-- The state of `main` after line 210: `sub1, sub2, sub3` at addresses 0, 1, 2
and `message1 = [sub1]`, `message2 = [sub2, sub3]`, `message3 = [sub1, sub2, sub3]`
at addresses 0, 1, 2. -/
def mainSetup : World :=
  { runningID := 3
    subs := [⟨0, .NamedSubscriber "sub1"⟩, ⟨1, .NamedSubscriber "sub2"⟩,
             ⟨2, .NamedSubscriber "sub3"⟩]
    msgs := [⟨[0], "TestMessage1", .TestMessage1⟩, ⟨[1, 2], "TestMessage2", .TestMessage2⟩,
             ⟨[0, 1, 2], "TestMessage1", .TestMessage1⟩]
    cout := []
    calls := [] }

/-- The state of `main` after line 212: `mainSetup` plus the freshly constructed
`DynamicMessage message4("Hello World")` at address 3. -/
def mainWithMessage4 : World :=
  (MessageBase.construct mainSetup (.DynamicMessage "Hello World")).1

/-- Identifier bookkeeping of a state in which every subscriber was built by
`Subscriber()` and none was copied or assigned to: the counter is the number of
subscribers constructed so far, and the `k`-th constructed subscriber carries
`k`, both reduced modulo `2 ^ UINT_BITS`.  (For states with copies see
`World.idsTracked`.) -/
def World.idsInOrder (w : World) : Prop :=
  w.runningID = w.subs.length % 2 ^ UINT_BITS ∧
  ∀ k s, w.subs[k]? = some s → s.ID = k % 2 ^ UINT_BITS

/-- Where the identifiers of the subscriber objects come from, as far as the
statements executed so far determine it.  `defaultCtors` counts the executions
of the constructor `Subscriber()`.  `origin` has one entry per subscriber
address: `some d` when the object was built by the `d`-th execution of
`Subscriber()` (counting from 0) and has not been the target of a copy
assignment since, `none` when it was copy-constructed or assigned to. -/
structure Provenance where
  defaultCtors : Nat
  origin : List (Option Nat)
deriving DecidableEq, Repr

/-- Provenance at process start: nothing constructed. -/
def Provenance.init : Provenance :=
  { defaultCtors := 0, origin := [] }

/-- Effect of one statement on the provenance. -/
def Stmt.track (g : Provenance) : Stmt → Provenance
  | .newSubscriber _ =>
      { defaultCtors := g.defaultCtors + 1, origin := g.origin ++ [some g.defaultCtors] }
  | .copySubscriber _ => { g with origin := g.origin ++ [none] }
  | .assignSubscriber dst _ => { g with origin := g.origin.set dst none }
  | .assignSubscriberBase dst _ => { g with origin := g.origin.set dst none }
  | _ => g

/-- Provenance after a sequence of statements. -/
def provenance : Provenance → List Stmt → Provenance
  | g, [] => g
  | g, st :: rest => provenance (st.track g) rest

/-- The identifier bookkeeping that holds in every reachable state, copies
included: the counter is the number of `Subscriber()` executions modulo
`2 ^ UINT_BITS`; an object whose origin is the `d`-th execution carries
`d mod 2 ^ UINT_BITS`; and such objects appear in the store in the order of
their construction. -/
def World.idsTracked (w : World) (g : Provenance) : Prop :=
  w.runningID = g.defaultCtors % 2 ^ UINT_BITS ∧
  g.origin.length = w.subs.length ∧
  (∀ k d : Nat, g.origin[k]? = some (some d) →
    d < g.defaultCtors ∧ ∃ s : Subscriber, w.subs[k]? = some s ∧ s.ID = d % 2 ^ UINT_BITS) ∧
  (∀ i j di dj : Nat, i < j → g.origin[i]? = some (some di) →
    g.origin[j]? = some (some dj) → di < dj)

/-- The program `NamedSubscriber a("a"); NamedSubscriber b(a); NamedSubscriber c("c");
NamedSubscriber d("d"); d = a;`. -/
def copyingProgram : List Stmt :=
  [.newSubscriber (.NamedSubscriber "a"), .copySubscriber 0,
   .newSubscriber (.NamedSubscriber "c"), .newSubscriber (.NamedSubscriber "d"),
   .assignSubscriber 3 0]

/-- The state `copyingProgram` reaches from process start: `a` and its copy `b`
both carry 0, `c` carries 1, and `d`, built with 2, carries 0 after `d = a`. -/
def copiedSubs : World :=
  { runningID := 3
    subs := [⟨0, .NamedSubscriber "a"⟩, ⟨0, .NamedSubscriber "a"⟩, ⟨1, .NamedSubscriber "c"⟩,
             ⟨0, .NamedSubscriber "a"⟩]
    msgs := []
    cout := []
    calls := [] }

/-- A program that constructs `2 ^ UINT_BITS + 1` subscribers and does nothing else. -/
def manySubscribers : List Stmt :=
  List.replicate (2 ^ UINT_BITS + 1) (Stmt.newSubscriber (.NamedSubscriber "s"))

/-- A state holding one `VoltageAlertHandler` (address 0) and one freshly
constructed `TestMessage1` (address 0). -/
def handlerAndTestMessage : World :=
  (MessageBase.construct
    (Subscriber.construct World.init (.VoltageAlertHandler "pager:123123123")).1
    .TestMessage1).1

/-- The character `endl` inserts, a line feed (the flush is not observable here). -/
def endlText : String := String.singleton (Char.ofNat 10)

/-- Characters of one inserted item; `fmt` stands for the stream's formatting of
a `float`, which is left uninterpreted. -/
def OutItem.text (fmt : Option CFloat → String) : OutItem → String
  | .str s => s
  | .flt v => fmt v
  | .endl => endlText

/-- The characters a list of insertions writes to `cout`. -/
def render (fmt : Option CFloat → String) : List OutItem → String
  | [] => ""
  | x :: xs => x.text fmt ++ render fmt xs

/-- The state a process reaches by executing lines 229-239 of `main` on their
own: the three `VoltageAlertHandler`s at addresses 0, 1, 2 and `T1OV_alert`
(an `OvervoltageAlert`, voltage not yet set) at address 0 with the three
handlers added. -/
def alertSetup : World :=
  { runningID := 3
    subs := [⟨0, .VoltageAlertHandler "mailto:crises@electrical-company.com"⟩,
             ⟨1, .VoltageAlertHandler "pager:123123123"⟩,
             ⟨2, .VoltageAlertHandler "http://www.electrical-company.com"⟩]
    msgs := [⟨[0, 1, 2], "OvervoltageAlert", .OvervoltageAlert "transformer_id_1" none⟩]
    cout := []
    calls := [] }

/-! ## Basic facts -/

theorem virtualNotify_eq (w : World) (p : SubPtr) (pm : MsgPtr) (s : Subscriber)
    (m : MessageBase) (hs : w.subs[p]? = some s) (hm : w.msgs[pm]? = some m) :
    Subscriber.notify w p pm = .ok (w.published pm m [p]) := by
  unfold Subscriber.notify
  rw [hs]
  cases hc : s.cls with
  | NamedSubscriber n =>
    simp only [NamedSubscriber.notify, World.print, hm]
    cases hd : m.cls.castDynamicMessage <;>
      simp [World.published, outputOf, invocations, hs, Subscriber.output, hc, hd]
  | VoltageAlertHandler t =>
    simp only [VoltageAlertHandler.notify, World.print, hm]
    cases hd : m.cls.castTransformerAlert <;>
      simp [World.published, outputOf, invocations, hs, Subscriber.output, hc, hd]

theorem published_nil (w : World) (this : MsgPtr) (m : MessageBase) :
    w.published this m [] = w := by
  simp [World.published, outputOf, invocations]

theorem published_cons (w : World) (this : MsgPtr) (m : MessageBase) (p : SubPtr)
    (ps : List SubPtr) :
    (w.published this m [p]).published this m ps = w.published this m (p :: ps) := by
  simp [World.published, outputOf, invocations, List.append_assoc]

theorem notifyLoop_eq (k : Nat) :
    ∀ (fuel : Nat) (w : World) (this : MsgPtr) (iter : Nat) (m : MessageBase),
      w.msgs[this]? = some m → w.validSubs m.subscribers →
      iter + k = m.subscribers.length → k < fuel →
      MessageBase.notifyLoop fuel w this iter
        = .ok (w.published this m (m.subscribers.drop iter)) := by
  induction k with
  | zero =>
    intro fuel w this iter m hm _ hlen hfuel
    obtain ⟨f, rfl⟩ : ∃ f, fuel = f + 1 := ⟨fuel - 1, by omega⟩
    have hi : iter = m.subscribers.length := by omega
    simp [MessageBase.notifyLoop, hm, hi, published_nil]
  | succ k ih =>
    intro fuel w this iter m hm hv hlen hfuel
    obtain ⟨f, rfl⟩ : ∃ f, fuel = f + 1 := ⟨fuel - 1, by omega⟩
    have hlt : iter < m.subscribers.length := by omega
    have hp : m.subscribers[iter]? = some m.subscribers[iter] := List.getElem?_eq_getElem hlt
    have hpv : m.subscribers[iter] < w.subs.length :=
      hv _ (List.getElem_mem hlt)
    have hs : w.subs[m.subscribers[iter]]? = some w.subs[m.subscribers[iter]] :=
      List.getElem?_eq_getElem hpv
    have hcall := virtualNotify_eq w m.subscribers[iter] this _ m hs hm
    have hne : iter ≠ m.subscribers.length := by omega
    rw [MessageBase.notifyLoop]
    simp only [hm, hne, if_false, hp, hcall]
    rw [ih f (w.published this m [m.subscribers[iter]]) this (iter + 1) m hm hv (by omega)
      (by omega)]
    rw [published_cons, ← List.drop_eq_getElem_cons hlt]

theorem publish_eq (fuel : Nat) (w : World) (this : MsgPtr) (m : MessageBase)
    (hm : w.msgs[this]? = some m) (hv : w.validSubs m.subscribers)
    (hfuel : m.subscribers.length < fuel) :
    MessageBase.notify fuel w this = .ok (w.published this m m.subscribers) := by
  have h := notifyLoop_eq m.subscribers.length fuel w this 0 m hm hv (by omega) hfuel
  simpa [MessageBase.notify] using h

theorem store_get_self (w : World) (p : MsgPtr) (m m1 : MessageBase)
    (hm : w.msgs[p]? = some m) : (w.store p m1).msgs[p]? = some m1 := by
  have hlt : p < w.msgs.length := by
    rcases List.getElem?_eq_some.1 hm with ⟨h, _⟩
    exact h
  simp [World.store, List.getElem?_set, hlt]

theorem store_get_ne (w : World) (p q : MsgPtr) (m1 : MessageBase) (hne : p ≠ q) :
    (w.store p m1).msgs[q]? = w.msgs[q]? := by
  simp [World.store, List.getElem?_set_ne hne]

theorem store_store (w : World) (p : MsgPtr) (a b : MessageBase) :
    (w.store p a).store p b = w.store p b := by
  simp [World.store, List.set_set]

theorem store_same (w : World) (p : MsgPtr) (m : MessageBase)
    (hm : w.msgs[p]? = some m) : w.store p m = w := by
  have hlt : p < w.msgs.length := by
    rcases List.getElem?_eq_some.1 hm with ⟨h, _⟩
    exact h
  have : w.msgs.set p m = w.msgs := by
    apply List.ext_getElem?
    intro n
    by_cases hn : p = n
    · subst hn
      simp [List.getElem?_set, hlt, hm]
    · simp [List.getElem?_set_ne hn]
  simp [World.store, this]

theorem addSubscriber_eq (w : World) (this : MsgPtr) (p : SubPtr) (m : MessageBase)
    (hm : w.msgs[this]? = some m) :
    MessageBase.addSubscriber w this p
      = .ok (w.store this { m with subscribers := m.subscribers ++ [p] }) := by
  simp [MessageBase.addSubscriber, hm]

theorem copySubscribers_eq (w : World) (this fromMsg : MsgPtr)
    (dst src : MessageBase) (hd : w.msgs[this]? = some dst) (hs : w.msgs[fromMsg]? = some src) :
    MessageBase.copySubscribers w this fromMsg
      = .ok (w.store this { dst with subscribers := src.subscribers }) := by
  simp [MessageBase.copySubscribers, hd, hs]

theorem setName_eq (w : World) (this : MsgPtr) (n : String) (m : MessageBase)
    (hm : w.msgs[this]? = some m) :
    MessageBase.setName w this n = .ok (w.store this { m with name := n }) := by
  simp [MessageBase.setName, hm]

/-- A run of `addSubscriber` calls on one message appends the arguments, in call
order, to its subscriber sequence and changes nothing else. -/
theorem run_addSubscriber (fuel : Nat) (this : MsgPtr) (ss : List SubPtr) :
    ∀ (w : World) (m : MessageBase), w.msgs[this]? = some m →
      run fuel w (ss.map (Stmt.addSubscriber this))
        = .ok (w.store this { m with subscribers := m.subscribers ++ ss }) := by
  induction ss with
  | nil =>
    intro w m hm
    simp [run, store_same w this m hm]
  | cons s ss ih =>
    intro w m hm
    simp only [List.map_cons, run, Stmt.exec, addSubscriber_eq w this s m hm]
    rw [ih _ _ (store_get_self w this m _ hm), store_store]
    simp [List.append_assoc]

theorem construct_get (w : World) (c : MessageCtor) :
    (MessageBase.construct w c).1.msgs[(MessageBase.construct w c).2]? = some c.build := by
  simp [MessageBase.construct]

theorem build_subscribers (c : MessageCtor) : c.build.subscribers = [] := by
  cases c <;> rfl

/-! ## C1: publish invokes every registered subscriber once, in order -/

/-- C1: on a freshly constructed message `M` (any constructor `c`, any state
`w`), after the calls `addSubscriber(s_1) ... addSubscriber(s_n)` with live
subscribers, `MessageBase::notify()` returns and the invocations it made are
exactly `s_1.notify(M), ..., s_n.notify(M)`, in that order, each handed `M`. -/
theorem C1_notify_invokes_each_once_in_order (fuel : Nat) (w : World) (c : MessageCtor)
    (ss : List SubPtr) (hv : w.validSubs ss) (hfuel : ss.length < fuel) :
    ∃ w1 w2,
      run fuel (MessageBase.construct w c).1
          (ss.map (Stmt.addSubscriber (MessageBase.construct w c).2)) = .ok w1 ∧
      MessageBase.notify fuel w1 (MessageBase.construct w c).2 = .ok w2 ∧
      w1.calls = w.calls ∧
      w2.calls = w.calls ++ ss.map (fun s => (s, (MessageBase.construct w c).2)) := by
  have hget := construct_get w c
  have hrun := run_addSubscriber fuel (MessageBase.construct w c).2 ss _ _ hget
  rw [build_subscribers, List.nil_append] at hrun
  have hget1 := store_get_self _ _ _ { c.build with subscribers := ss } hget
  refine ⟨_, _, hrun, publish_eq fuel _ _ _ hget1 hv hfuel, rfl, rfl⟩

/-- C1 at `main`'s `message3`: a `TestMessage1` with `sub1, sub2, sub3` added. -/
theorem C1_witness :
    ∃ w1 w2,
      run 4 (MessageBase.construct threeSubs .TestMessage1).1
          ([0, 1, 2].map (Stmt.addSubscriber (MessageBase.construct threeSubs .TestMessage1).2))
        = .ok w1 ∧
      MessageBase.notify 4 w1 (MessageBase.construct threeSubs .TestMessage1).2 = .ok w2 ∧
      w1.calls = threeSubs.calls ∧
      w2.calls = threeSubs.calls ++
        [0, 1, 2].map (fun s => (s, (MessageBase.construct threeSubs .TestMessage1).2)) :=
  C1_notify_invokes_each_once_in_order 4 threeSubs .TestMessage1 [0, 1, 2] (by decide)
    (by decide)

/-- The state `mainSetup` is what lines 196-210 of `main` produce. -/
theorem mainSetup_reached :
    run 0 World.init
      [.newSubscriber (.NamedSubscriber "sub1"), .newSubscriber (.NamedSubscriber "sub2"),
       .newSubscriber (.NamedSubscriber "sub3"),
       .newMessage .TestMessage1, .addSubscriber 0 0,
       .newMessage .TestMessage2, .addSubscriber 1 1, .addSubscriber 1 2,
       .newMessage .TestMessage1, .addSubscriber 2 0, .addSubscriber 2 1, .addSubscriber 2 2]
      = .ok mainSetup := by
  decide

/-! ## C2: `copySubscribers` replaces the target's sequence by the source's -/

/-- C2: for live messages `A` (at `a`) and `B` (at `b`, possibly the same
object), `B.copySubscribers(A)` returns and afterwards the subscriber sequence
of `B` is exactly the sequence `A` held at the call; whatever `B` held before
is gone. -/
theorem C2_copySubscribers_replaces (w : World) (a b : MsgPtr) (mA mB : MessageBase)
    (hA : w.msgs[a]? = some mA) (hB : w.msgs[b]? = some mB) :
    ∃ w1, MessageBase.copySubscribers w b a = .ok w1 ∧
      w1.subscribersOf b = some mA.subscribers ∧
      w1.subscribersOf b = w.subscribersOf a := by
  refine ⟨_, copySubscribers_eq w b a mB mA hB hA, ?_, ?_⟩
  · simp [World.subscribersOf, store_get_self w b mB _ hB]
  · simp [World.subscribersOf, store_get_self w b mB _ hB, hA]

/-- C2 on `main`'s objects: `message2 = [sub2, sub3]` copies from
`message1 = [sub1]` and ends up holding `[sub1]`. -/
theorem C2_witness :
    ∃ w1, MessageBase.copySubscribers mainSetup 1 0 = .ok w1 ∧
      w1.subscribersOf 1 = some [0] ∧
      w1.subscribersOf 1 = mainSetup.subscribersOf 0 :=
  C2_copySubscribers_replaces mainSetup 0 1 ⟨[0], "TestMessage1", .TestMessage1⟩
    ⟨[1, 2], "TestMessage2", .TestMessage2⟩ (by decide) (by decide)

/-! ## C3: the copy is a snapshot -/

theorem store_length (w : World) (p : MsgPtr) (m : MessageBase) :
    (w.store p m).msgs.length = w.msgs.length := by
  simp [World.store]

/-- Statements that only write the message at `a` (reading live messages) leave
every other message as it was. -/
theorem run_writes_only_target (fuel : Nat) (a b : MsgPtr) (hne : a ≠ b) (n : Nat) (ha : a < n) :
    ∀ (ops : List Stmt) (w : World), w.msgs.length = n →
      (∀ op ∈ ops, (∃ s, op = Stmt.addSubscriber a s) ∨
        (∃ c, c < n ∧ op = Stmt.copySubscribers a c)) →
      ∃ w2, run fuel w ops = .ok w2 ∧ w2.msgs[b]? = w.msgs[b]? ∧ w2.msgs.length = n := by
  intro ops
  induction ops with
  | nil =>
    intro w hn _
    exact ⟨w, rfl, rfl, hn⟩
  | cons op ops ih =>
    intro w hn hops
    obtain ⟨ma, hma⟩ : ∃ m, w.msgs[a]? = some m :=
      ⟨_, List.getElem?_eq_getElem (show a < w.msgs.length by rw [hn]; exact ha)⟩
    have hrest : ∀ op1 ∈ ops, (∃ s, op1 = Stmt.addSubscriber a s) ∨
        (∃ c, c < n ∧ op1 = Stmt.copySubscribers a c) :=
      fun op1 h1 => hops op1 (List.mem_cons_of_mem _ h1)
    rcases hops op (List.mem_cons_self _ _) with ⟨s, rfl⟩ | ⟨c, hc, rfl⟩
    · obtain ⟨w2, hrun, hb, hlen⟩ :=
        ih (w.store a { ma with subscribers := ma.subscribers ++ [s] })
          (by rw [store_length, hn]) hrest
      refine ⟨w2, ?_, ?_, hlen⟩
      · simp only [run, Stmt.exec, addSubscriber_eq w a s _ hma, hrun]
      · rw [hb, store_get_ne w a b _ hne]
    · obtain ⟨mc, hmc⟩ : ∃ m, w.msgs[c]? = some m :=
        ⟨_, List.getElem?_eq_getElem (show c < w.msgs.length by rw [hn]; exact hc)⟩
      obtain ⟨w2, hrun, hb, hlen⟩ :=
        ih (w.store a { ma with subscribers := mc.subscribers })
          (by rw [store_length, hn]) hrest
      refine ⟨w2, ?_, ?_, hlen⟩
      · simp only [run, Stmt.exec, copySubscribers_eq w a c _ _ hma hmc, hrun]
      · rw [hb, store_get_ne w a b _ hne]

theorem published_msgs (w : World) (this : MsgPtr) (m : MessageBase) (ps : List SubPtr) :
    (w.published this m ps).msgs = w.msgs := rfl

theorem published_subs (w : World) (this : MsgPtr) (m : MessageBase) (ps : List SubPtr) :
    (w.published this m ps).subs = w.subs := rfl

/-- C3: for distinct live messages `A` (at `a`) and `B` (at `b`), after
`B.copySubscribers(A)`: (1) `B` holds `A`'s sequence `L`; (2) any later run of
`addSubscriber` / `copySubscribers` calls on `A` leaves `B`'s sequence equal to
`L`; (3) any later run of `addSubscriber` calls on `B` leaves `A`'s sequence
equal to `L` (and extends `B`'s); (4) after `B.addSubscriber(s2)`, publishing
`A` invokes exactly the entries of `L` and publishing `B` invokes the entries of
`L` and then `s2` (for `L = [s1]`: only `s1`, then `s1, s2`). -/
theorem C3_copy_is_snapshot (fuel : Nat) (w : World) (a b : MsgPtr) (mA mB : MessageBase)
    (hA : w.msgs[a]? = some mA) (hB : w.msgs[b]? = some mB) (hne : a ≠ b) :
    ∃ w1, MessageBase.copySubscribers w b a = .ok w1 ∧
      w1.subscribersOf b = some mA.subscribers ∧
      (∀ ops : List Stmt,
        (∀ op ∈ ops, (∃ s, op = Stmt.addSubscriber a s) ∨
          (∃ c, c < w.msgs.length ∧ op = Stmt.copySubscribers a c)) →
        ∃ w2, run fuel w1 ops = .ok w2 ∧ w2.subscribersOf b = some mA.subscribers) ∧
      (∀ ss : List SubPtr,
        ∃ w2, run fuel w1 (ss.map (Stmt.addSubscriber b)) = .ok w2 ∧
          w2.subscribersOf a = some mA.subscribers ∧
          w2.subscribersOf b = some (mA.subscribers ++ ss)) ∧
      (∀ s2 : SubPtr, w.validSubs (mA.subscribers ++ [s2]) → mA.subscribers.length + 1 < fuel →
        ∃ w3, run fuel w1 [.addSubscriber b s2, .notify a, .notify b] = .ok w3 ∧
          w3.calls = w.calls ++ mA.subscribers.map (fun s => (s, a)) ++
            (mA.subscribers ++ [s2]).map (fun s => (s, b))) := by
  have hlt : a < w.msgs.length := by
    rcases List.getElem?_eq_some.1 hA with ⟨h, _⟩
    exact h
  have hcopy := copySubscribers_eq w b a mB mA hB hA
  have hb1 := store_get_self w b mB { mB with subscribers := mA.subscribers } hB
  have ha1 : (w.store b { mB with subscribers := mA.subscribers }).msgs[a]? = some mA := by
    rw [store_get_ne w b a _ (Ne.symm hne), hA]
  refine ⟨_, hcopy, ?_, ?_, ?_, ?_⟩
  · simp [World.subscribersOf, hb1]
  · intro ops hops
    obtain ⟨w2, hrun, hb, _⟩ :=
      run_writes_only_target fuel a b hne w.msgs.length hlt ops
        (w.store b { mB with subscribers := mA.subscribers }) (store_length w b _) hops
    exact ⟨w2, hrun, by simp [World.subscribersOf, hb, hb1]⟩
  · intro ss
    refine ⟨_, run_addSubscriber fuel b ss _ _ hb1, ?_, ?_⟩
    · simp [World.subscribersOf, store_get_ne _ b a _ (Ne.symm hne), hA]
    · simp [World.subscribersOf, store_get_self _ b _ _ hb1]
  · intro s2 hv hfuel
    have hvA : w.validSubs mA.subscribers :=
      fun p hp => hv p (List.mem_append_left _ hp)
    have hadd : MessageBase.addSubscriber (w.store b { mB with subscribers := mA.subscribers })
        b s2 = .ok (w.store b { mB with subscribers := mA.subscribers ++ [s2] }) := by
      rw [addSubscriber_eq _ b s2 _ hb1, store_store]
    have hb2 := store_get_self w b mB
      { mB with subscribers := mA.subscribers ++ [s2] } hB
    have ha2 : (w.store b { mB with subscribers := mA.subscribers ++ [s2] }).msgs[a]?
        = some mA := by
      rw [store_get_ne w b a _ (Ne.symm hne), hA]
    have hpubA := publish_eq fuel _ a mA ha2 hvA (by omega)
    have hpubB := publish_eq fuel
      ((w.store b { mB with subscribers := mA.subscribers ++ [s2] }).published a mA
        mA.subscribers) b { mB with subscribers := mA.subscribers ++ [s2] } hb2 hv
      (by simp; omega)
    refine ⟨((w.store b { mB with subscribers := mA.subscribers ++ [s2] }).published a mA
        mA.subscribers).published b { mB with subscribers := mA.subscribers ++ [s2] }
        (mA.subscribers ++ [s2]), ?_, ?_⟩
    · simp only [run, Stmt.exec, hadd, hpubA, hpubB]
    · simp [World.published, invocations, World.store, List.append_assoc]

theorem run_cons_ok (fuel : Nat) (w w1 : World) (st : Stmt) (rest : List Stmt)
    (h : st.exec fuel w = .ok w1) : run fuel w (st :: rest) = run fuel w1 rest := by
  simp [run, h]

/-- C3 on `main`'s objects: `message4` (fresh, address 3) copies from
`message1 = [sub1]` (address 0) and then gets `sub2`; publishing `message1`
invokes `sub1` only, publishing `message4` invokes `sub1` then `sub2`. -/
theorem C3_witness :
    ∃ w3, run 3 mainWithMessage4
        [.copySubscribers 3 0, .addSubscriber 3 1, .notify 0, .notify 3] = .ok w3 ∧
      w3.calls = [(0, 0), (0, 3), (1, 3)] := by
  obtain ⟨w1, hcopy, _, _, _, hscen⟩ :=
    C3_copy_is_snapshot 3 mainWithMessage4 0 3 ⟨[0], "TestMessage1", .TestMessage1⟩
      ⟨[], "DynamicMessage", .DynamicMessage "Hello World"⟩ (by decide) (by decide) (by decide)
  obtain ⟨w3, hrun, hcalls⟩ := hscen 1 (by decide) (by decide)
  exact ⟨w3, (run_cons_ok 3 mainWithMessage4 w1 (.copySubscribers 3 0) _ hcopy).trans hrun, hcalls⟩

/-! ## C4, C5: subscriber identifiers -/

theorem virtualNotify_frame (w w1 : World) (p : SubPtr) (pm : MsgPtr)
    (h : Subscriber.notify w p pm = .ok w1) :
    w1.subs = w.subs ∧ w1.runningID = w.runningID ∧ w1.msgs = w.msgs := by
  cases hs : w.subs[p]? with
  | none => simp [Subscriber.notify, hs] at h
  | some s =>
    cases hm : w.msgs[pm]? with
    | none =>
      cases hc : s.cls <;>
        simp [Subscriber.notify, hs, hc, NamedSubscriber.notify, VoltageAlertHandler.notify,
          World.print, hm] at h
    | some m =>
      rw [virtualNotify_eq w p pm s m hs hm] at h
      cases h
      exact ⟨rfl, rfl, rfl⟩

/-- Whenever the publish loop returns, it has changed neither the object stores
nor the identifier counter. -/
theorem notifyLoop_frame (fuel : Nat) :
    ∀ (w w1 : World) (this : MsgPtr) (iter : Nat),
      MessageBase.notifyLoop fuel w this iter = .ok w1 →
      w1.subs = w.subs ∧ w1.runningID = w.runningID ∧ w1.msgs = w.msgs := by
  induction fuel with
  | zero =>
    intro w w1 this iter h
    simp [MessageBase.notifyLoop] at h
  | succ f ih =>
    intro w w1 this iter h
    rw [MessageBase.notifyLoop] at h
    cases hm : w.msgs[this]? with
    | none => simp [hm] at h
    | some m =>
      simp only [hm] at h
      by_cases hend : iter = m.subscribers.length
      · simp only [hend, if_true] at h
        cases h
        exact ⟨rfl, rfl, rfl⟩
      · simp only [hend, if_false] at h
        cases hp : m.subscribers[iter]? with
        | none => simp [hp] at h
        | some p =>
          simp only [hp] at h
          cases hcall : Subscriber.notify w p this with
          | error e => simp [hcall] at h
          | ok w2 =>
            simp only [hcall] at h
            obtain ⟨h1, h2, h3⟩ := virtualNotify_frame w w2 p this hcall
            obtain ⟨k1, k2, k3⟩ := ih w2 w1 this (iter + 1) h
            exact ⟨k1.trans h1, k2.trans h2, k3.trans h3⟩

theorem idsInOrder_init : World.init.idsInOrder := by
  constructor
  · simp [World.init]
  · intro k s h
    simp [World.init] at h

theorem idsInOrder_construct (w : World) (cls : SubscriberClass) (h : w.idsInOrder) :
    (Subscriber.construct w cls).1.idsInOrder := by
  obtain ⟨hrun, hids⟩ := h
  constructor
  · simp only [Subscriber.construct, List.length_append, List.length_singleton, hrun]
    exact (Nat.add_mod _ _ _).symm ▸ by simp [Nat.add_mod]
  · intro k s hk
    simp only [Subscriber.construct] at hk
    by_cases hlt : k < w.subs.length
    · rw [List.getElem?_append_left hlt] at hk
      exact hids k s hk
    · have hge : w.subs.length ≤ k := Nat.le_of_not_lt hlt
      rw [List.getElem?_append_right hge] at hk
      cases hz : k - w.subs.length with
      | zero =>
        rw [hz] at hk
        simp at hk
        have hke : k = w.subs.length := by omega
        rw [← hk, hke]
        exact hrun
      | succ n =>
        rw [hz] at hk
        simp at hk

/-- In a state with ordered identifiers, the `k`-th constructed subscriber
answers `k mod 2 ^ UINT_BITS` to `getID()`. -/
theorem getID_of_idsInOrder (w : World) (h : w.idsInOrder) (k : Nat) (hk : k < w.subs.length) :
    w.getID k = some (k % 2 ^ UINT_BITS) := by
  have hs : w.subs[k]? = some w.subs[k] := List.getElem?_eq_getElem hk
  simp [World.getID, hs, Subscriber.getID, h.2 k _ hs]

/-- A run of default constructions only keeps the identifiers ordered. -/
theorem run_replicate_newSubscriber (fuel : Nat) (cls : SubscriberClass) (n : Nat) :
    ∀ w : World, w.idsInOrder →
      ∃ w1, run fuel w (List.replicate n (Stmt.newSubscriber cls)) = .ok w1 ∧
        w1.subs.length = w.subs.length + n ∧ w1.idsInOrder := by
  induction n with
  | zero =>
    intro w h
    exact ⟨w, rfl, rfl, h⟩
  | succ n ih =>
    intro w h
    obtain ⟨w1, hrun, hlen, hids⟩ :=
      ih (Subscriber.construct w cls).1 (idsInOrder_construct w cls h)
    refine ⟨w1, ?_, ?_, hids⟩
    · rw [List.replicate_succ,
        run_cons_ok fuel w (Subscriber.construct w cls).1 (Stmt.newSubscriber cls) _ rfl, hrun]
    · rw [hlen]
      simp [Subscriber.construct]
      omega

theorem getElem?_append_singleton_some {α : Type} (l : List α) (a b : α) (k : Nat)
    (h : (l ++ [a])[k]? = some b) :
    (k < l.length ∧ l[k]? = some b) ∨ (k = l.length ∧ a = b) := by
  by_cases hk : k < l.length
  · rw [List.getElem?_append_left hk] at h
    exact Or.inl ⟨hk, h⟩
  · have hge : l.length ≤ k := Nat.le_of_not_lt hk
    rw [List.getElem?_append_right hge] at h
    cases hz : k - l.length with
    | zero =>
      rw [hz] at h
      simp at h
      exact Or.inr ⟨by omega, h⟩
    | succ n =>
      rw [hz] at h
      simp at h

theorem getElem?_set_some {α : Type} (l : List α) (i k : Nat) (a b : α)
    (h : (l.set i a)[k]? = some b) :
    (k = i ∧ a = b) ∨ (k ≠ i ∧ l[k]? = some b) := by
  by_cases hik : i = k
  · subst hik
    rw [List.getElem?_set] at h
    simp at h
    exact Or.inl ⟨rfl, h.2⟩
  · rw [List.getElem?_set_ne hik] at h
    exact Or.inr ⟨fun e => hik e.symm, h⟩

theorem idsTracked_init : World.init.idsTracked Provenance.init := by
  refine ⟨by simp [World.init, Provenance.init], rfl, ?_, ?_⟩
  · intro k d h
    simp [Provenance.init] at h
  · intro i j di dj _ h
    simp [Provenance.init] at h

/-- The constructor `Subscriber()` gives the new object the number of earlier
executions of `Subscriber()`, modulo `2 ^ UINT_BITS`. -/
theorem idsTracked_construct (w : World) (g : Provenance) (cls : SubscriberClass)
    (h : w.idsTracked g) :
    (Subscriber.construct w cls).1.idsTracked (Stmt.track g (.newSubscriber cls)) := by
  obtain ⟨hrun, hlen, hid, hmono⟩ := h
  refine ⟨?_, ?_, ?_, ?_⟩
  · simp only [Subscriber.construct, Stmt.track, hrun]
    simp [Nat.add_mod]
  · simp [Subscriber.construct, Stmt.track, hlen]
  · intro k d hk
    simp only [Stmt.track] at hk ⊢
    rcases getElem?_append_singleton_some _ _ _ _ hk with ⟨hlt, hold⟩ | ⟨hkeq, hnew⟩
    · obtain ⟨hd, s, hs, hsid⟩ := hid k d hold
      refine ⟨Nat.lt_succ_of_lt hd, s, ?_, hsid⟩
      simp only [Subscriber.construct]
      rw [List.getElem?_append_left (by rw [← hlen]; exact hlt)]
      exact hs
    · have hdeq : g.defaultCtors = d := Option.some.inj hnew
      refine ⟨by omega, ⟨w.runningID, cls⟩, ?_, ?_⟩
      · simp only [Subscriber.construct]
        rw [hkeq, hlen, List.getElem?_append_right (Nat.le_refl _)]
        simp
      · rw [← hdeq]
        exact hrun
  · intro i j di dj hij hi hj
    simp only [Stmt.track] at hi hj
    rcases getElem?_append_singleton_some _ _ _ _ hj with ⟨_, hjold⟩ | ⟨hjeq, hjnew⟩
    · rcases getElem?_append_singleton_some _ _ _ _ hi with ⟨_, hiold⟩ | ⟨hieq, _⟩
      · exact hmono i j di dj hij hiold hjold
      · have := (List.getElem?_eq_some.1 hjold).1
        omega
    · rcases getElem?_append_singleton_some _ _ _ _ hi with ⟨_, hiold⟩ | ⟨hieq, _⟩
      · have hdj : g.defaultCtors = dj := Option.some.inj hjnew
        have := (hid i di hiold).1
        omega
      · omega

/-- A copy-constructed subscriber gets no origin; the counter stays. -/
theorem idsTracked_copy (w : World) (g : Provenance) (s : Subscriber) (h : w.idsTracked g) :
    World.idsTracked { w with subs := w.subs ++ [s] }
      { g with origin := g.origin ++ [none] } := by
  obtain ⟨hrun, hlen, hid, hmono⟩ := h
  refine ⟨hrun, by simp [hlen], ?_, ?_⟩
  · intro k d hk
    rcases getElem?_append_singleton_some _ _ _ _ hk with ⟨hlt, hold⟩ | ⟨_, hnew⟩
    · obtain ⟨hd, s1, hs, hsid⟩ := hid k d hold
      refine ⟨hd, s1, ?_, hsid⟩
      show (w.subs ++ [s])[k]? = some s1
      rw [List.getElem?_append_left (by rw [← hlen]; exact hlt)]
      exact hs
    · cases hnew
  · intro i j di dj hij hi hj
    rcases getElem?_append_singleton_some _ _ _ _ hj with ⟨_, hjold⟩ | ⟨_, hjnew⟩
    · rcases getElem?_append_singleton_some _ _ _ _ hi with ⟨_, hiold⟩ | ⟨_, hinew⟩
      · exact hmono i j di dj hij hiold hjold
      · cases hinew
    · cases hjnew

/-- A subscriber that is the target of a copy assignment loses its origin. -/
theorem idsTracked_set (w : World) (g : Provenance) (dst : SubPtr) (s : Subscriber)
    (h : w.idsTracked g) :
    World.idsTracked { w with subs := w.subs.set dst s }
      { g with origin := g.origin.set dst none } := by
  obtain ⟨hrun, hlen, hid, hmono⟩ := h
  refine ⟨hrun, by simp [hlen], ?_, ?_⟩
  · intro k d hk
    rcases getElem?_set_some _ _ _ _ _ hk with ⟨_, hnew⟩ | ⟨hkne, hold⟩
    · cases hnew
    · obtain ⟨hd, s1, hs, hsid⟩ := hid k d hold
      refine ⟨hd, s1, ?_, hsid⟩
      show (w.subs.set dst s)[k]? = some s1
      rw [List.getElem?_set_ne (fun e => hkne e.symm)]
      exact hs
  · intro i j di dj hij hi hj
    rcases getElem?_set_some _ _ _ _ _ hi with ⟨_, hinew⟩ | ⟨_, hiold⟩
    · cases hinew
    · rcases getElem?_set_some _ _ _ _ _ hj with ⟨_, hjnew⟩ | ⟨_, hjold⟩
      · cases hjnew
      · exact hmono i j di dj hij hiold hjold

theorem idsTracked_frame (w w1 : World) (g : Provenance) (hs : w1.subs = w.subs)
    (hr : w1.runningID = w.runningID) (h : w.idsTracked g) : w1.idsTracked g := by
  obtain ⟨hrun, hlen, hid, hmono⟩ := h
  refine ⟨hr.trans hrun, by rw [hs]; exact hlen, ?_, hmono⟩
  intro k d hk
  rw [hs]
  exact hid k d hk

/-- Every statement keeps the identifier bookkeeping, with the provenance
advanced by `Stmt.track`. -/
theorem exec_idsTracked (fuel : Nat) (w w1 : World) (g : Provenance) (st : Stmt)
    (h : w.idsTracked g) (hex : st.exec fuel w = .ok w1) : w1.idsTracked (st.track g) := by
  cases st with
  | newSubscriber cls =>
    simp only [Stmt.exec] at hex
    cases hex
    exact idsTracked_construct w g cls h
  | newMessage c =>
    simp only [Stmt.exec] at hex
    cases hex
    exact h
  | addSubscriber this p =>
    simp only [Stmt.exec, MessageBase.addSubscriber] at hex
    cases hm : w.msgs[this]? <;> simp [hm] at hex
    subst hex
    exact h
  | copySubscribers this src =>
    simp only [Stmt.exec, MessageBase.copySubscribers] at hex
    cases hs : w.msgs[src]? <;> simp [hs] at hex
    cases hm : w.msgs[this]? <;> simp [hm] at hex
    subst hex
    exact h
  | setName this n =>
    simp only [Stmt.exec, MessageBase.setName] at hex
    cases hm : w.msgs[this]? <;> simp [hm] at hex
    subst hex
    exact h
  | notify this =>
    simp only [Stmt.exec, MessageBase.notify] at hex
    obtain ⟨h1, h2, _⟩ := notifyLoop_frame fuel w w1 this 0 hex
    exact idsTracked_frame w w1 g h1 h2 h
  | notifyVoltage this v =>
    simp only [Stmt.exec, OvervoltageAlert.notify] at hex
    cases hm : w.msgs[this]? with
    | none => simp [hm] at hex
    | some m =>
      simp only [hm] at hex
      cases hc : m.cls <;> simp [hc] at hex
      obtain ⟨h1, h2, _⟩ := notifyLoop_frame fuel _ w1 this 0 hex
      exact idsTracked_frame w w1 g h1 h2 h
  | print items =>
    simp only [Stmt.exec] at hex
    cases hex
    exact h
  | copySubscriber src =>
    simp only [Stmt.exec, Subscriber.copyConstruct] at hex
    cases hs : w.subs[src]? with
    | none => simp [hs] at hex
    | some s =>
      simp only [hs] at hex
      cases hex
      exact idsTracked_copy w g s h
  | assignSubscriber dst src =>
    simp only [Stmt.exec, Subscriber.copyAssign] at hex
    cases hs : w.subs[src]? with
    | none => simp [hs] at hex
    | some s =>
      cases hd : w.subs[dst]? with
      | none => simp [hs, hd] at hex
      | some d =>
        simp only [hs, hd] at hex
        by_cases hc : s.cls.sameClass d.cls = true
        · simp only [hc, if_true] at hex
          cases hex
          exact idsTracked_set w g dst s h
        · simp [hc] at hex
  | assignSubscriberBase dst src =>
    simp only [Stmt.exec, Subscriber.copyAssignBase] at hex
    cases hs : w.subs[src]? with
    | none => simp [hs] at hex
    | some s =>
      cases hd : w.subs[dst]? with
      | none => simp [hs, hd] at hex
      | some d =>
        simp only [hs, hd] at hex
        cases hex
        exact idsTracked_set w g dst _ h
  | copyMessage src =>
    simp only [Stmt.exec, MessageBase.copyConstruct] at hex
    cases hs : w.msgs[src]? <;> simp [hs] at hex
    subst hex
    exact h
  | assignMessage dst src =>
    simp only [Stmt.exec, MessageBase.copyAssign] at hex
    cases hs : w.msgs[src]? with
    | none => simp [hs] at hex
    | some m =>
      cases hd : w.msgs[dst]? with
      | none => simp [hs, hd] at hex
      | some d =>
        simp only [hs, hd] at hex
        by_cases hc : m.cls.sameClass d.cls = true
        · simp only [hc, if_true] at hex
          cases hex
          exact h
        · simp [hc] at hex
  | assignMessageBase dst src =>
    simp only [Stmt.exec, MessageBase.copyAssignBase] at hex
    cases hs : w.msgs[src]? <;> simp [hs] at hex
    cases hd : w.msgs[dst]? <;> simp [hd] at hex
    subst hex
    exact h
  | callNotify p pm =>
    simp only [Stmt.exec] at hex
    obtain ⟨h1, h2, _⟩ := virtualNotify_frame w w1 p pm hex
    exact idsTracked_frame w w1 g h1 h2 h
  | callAlertText pm =>
    simp only [Stmt.exec, TransformerAlert.callAlertText] at hex
    cases hm : w.msgs[pm]? with
    | none => simp [hm] at hex
    | some m =>
      simp only [hm] at hex
      by_cases hc : m.cls.castTransformerAlert = true
      · simp only [hc, if_true] at hex
        cases hex
        exact h
      · simp [hc] at hex

theorem run_idsTracked (fuel : Nat) :
    ∀ (prog : List Stmt) (w w1 : World) (g : Provenance), w.idsTracked g →
      run fuel w prog = .ok w1 → w1.idsTracked (provenance g prog) := by
  intro prog
  induction prog with
  | nil =>
    intro w w1 g h hrun
    simp only [run] at hrun
    cases hrun
    exact h
  | cons st rest ih =>
    intro w w1 g h hrun
    simp only [run] at hrun
    cases hex : st.exec fuel w with
    | error e => simp [hex] at hrun
    | ok w2 =>
      simp only [hex] at hrun
      exact ih w2 w1 (st.track g) (exec_idsTracked fuel w w2 g st h hex) hrun

theorem reachable_idsTracked (fuel : Nat) (prog : List Stmt) (w : World)
    (h : run fuel World.init prog = .ok w) :
    w.idsTracked (provenance Provenance.init prog) :=
  run_idsTracked fuel prog World.init w Provenance.init idsTracked_init h

theorem getID_of_idsTracked (w : World) (g : Provenance) (h : w.idsTracked g) (k d : Nat)
    (hk : g.origin[k]? = some (some d)) : w.getID k = some (d % 2 ^ UINT_BITS) := by
  obtain ⟨_, s, hs, hsid⟩ := h.2.2.1 k d hk
  simp [World.getID, hs, Subscriber.getID, hsid]

/-- The model executes the implicit copy operations as the compiler-generated
ones do: after `copyingProgram` the identifiers are 0, 0, 1, 0 and the counter
is 3. -/
theorem copyingProgram_reached : run 0 World.init copyingProgram = .ok copiedSubs := by
  decide

/-- C4, refuted as stated: a process that constructs `2 ^ 32 + 1` subscribers
gives the first one (number 0) and the last one (number `2 ^ 32`) the same
identifier 0, because `runningID++` wraps around in `unsigned int`. -/
theorem C4_counterexample :
    ∃ w, run 0 World.init manySubscribers = .ok w ∧
      (0 : Nat) ≠ 2 ^ UINT_BITS ∧
      w.getID 0 = some 0 ∧ w.getID (2 ^ UINT_BITS) = some 0 := by
  obtain ⟨w, hrun, hlen, hids⟩ :=
    run_replicate_newSubscriber 0 (.NamedSubscriber "s") (2 ^ UINT_BITS + 1) World.init
      idsInOrder_init
  have hpos : 0 < 2 ^ UINT_BITS := Nat.two_pow_pos UINT_BITS
  refine ⟨w, hrun, Nat.ne_of_lt hpos, ?_, ?_⟩
  · rw [getID_of_idsInOrder w hids 0 (by omega), Nat.zero_mod]
  · rw [getID_of_idsInOrder w hids (2 ^ UINT_BITS) (by omega), Nat.mod_self]

/-- C4, amended: in every state a program can reach from process start (copy
construction and copy assignment of subscribers included), two distinct
subscribers that were each built by the constructor `Subscriber()` and never
overwritten by a copy assignment, and between whose constructions fewer than
`2 ^ 32` executions of `Subscriber()` lie, have different identifiers; so all
such subscribers have distinct identifiers as long as `Subscriber()` has run at
most `2 ^ 32` times.  Nothing is said about copies. -/
theorem C4_ids_distinct_within_period (fuel : Nat) (prog : List Stmt) (w : World)
    (h : run fuel World.init prog = .ok w) (i j di dj : Nat) (hne : i ≠ j)
    (hi : (provenance Provenance.init prog).origin[i]? = some (some di))
    (hj : (provenance Provenance.init prog).origin[j]? = some (some dj))
    (hd : di < dj + 2 ^ UINT_BITS ∧ dj < di + 2 ^ UINT_BITS) :
    (∃ x y, w.getID i = some x ∧ w.getID j = some y ∧ x ≠ y) ∧
    ((provenance Provenance.init prog).defaultCtors ≤ 2 ^ UINT_BITS →
      ∀ a b da db : Nat, a ≠ b →
        (provenance Provenance.init prog).origin[a]? = some (some da) →
        (provenance Provenance.init prog).origin[b]? = some (some db) →
        w.getID a ≠ w.getID b) := by
  have hinv := reachable_idsTracked fuel prog w h
  have key : ∀ a b da db : Nat, a ≠ b →
      (provenance Provenance.init prog).origin[a]? = some (some da) →
      (provenance Provenance.init prog).origin[b]? = some (some db) →
      da < db + 2 ^ UINT_BITS → db < da + 2 ^ UINT_BITS →
      da % 2 ^ UINT_BITS ≠ db % 2 ^ UINT_BITS := by
    intro a b da db hab ha hb h1 h2
    have hdne : da ≠ db := by
      rcases Nat.lt_or_gt_of_ne hab with hlt | hgt
      · exact Nat.ne_of_lt (hinv.2.2.2 a b da db hlt ha hb)
      · exact Nat.ne_of_gt (hinv.2.2.2 b a db da hgt hb ha)
    simp only [UINT_BITS] at h1 h2 ⊢
    omega
  constructor
  · exact ⟨_, _, getID_of_idsTracked w _ hinv i di hi, getID_of_idsTracked w _ hinv j dj hj,
      key i j di dj hne hi hj hd.1 hd.2⟩
  · intro hsmall a b da db hab ha hb
    rw [getID_of_idsTracked w _ hinv a da ha, getID_of_idsTracked w _ hinv b db hb]
    have hda := (hinv.2.2.1 a da ha).1
    have hdb := (hinv.2.2.1 b db hb).1
    intro heq
    exact key a b da db hab ha hb (by omega) (by omega) (Option.some.inj heq)

/-- C4 (amended) on `copyingProgram`: `a` (address 0, first default
construction) and `c` (address 2, second default construction) differ, although
the copy `b` of `a` sits between them. -/
theorem C4_witness :
    (∃ x y, copiedSubs.getID 0 = some x ∧ copiedSubs.getID 2 = some y ∧ x ≠ y) ∧
    ((provenance Provenance.init copyingProgram).defaultCtors ≤ 2 ^ UINT_BITS →
      ∀ a b da db : Nat, a ≠ b →
        (provenance Provenance.init copyingProgram).origin[a]? = some (some da) →
        (provenance Provenance.init copyingProgram).origin[b]? = some (some db) →
        copiedSubs.getID a ≠ copiedSubs.getID b) :=
  C4_ids_distinct_within_period 0 copyingProgram copiedSubs (by decide) 0 2 0 1 (by decide)
    (by decide) (by decide) (by decide)

/-- C5, refuted as stated: in a process that constructs `2 ^ 32 + 1`
subscribers, subscriber number `2 ^ 32` has identifier 0, which is not its
construction number and is smaller than the identifier 1 of subscriber number 1,
constructed earlier. -/
theorem C5_counterexample :
    ∃ w, run 0 World.init manySubscribers = .ok w ∧
      w.getID (2 ^ UINT_BITS) = some 0 ∧ w.getID (2 ^ UINT_BITS) ≠ some (2 ^ UINT_BITS) ∧
      w.getID 1 = some 1 ∧ 1 < 2 ^ UINT_BITS := by
  obtain ⟨w, hrun, hlen, hids⟩ :=
    run_replicate_newSubscriber 0 (.NamedSubscriber "s") (2 ^ UINT_BITS + 1) World.init
      idsInOrder_init
  have hone : 1 < 2 ^ UINT_BITS := by simp [UINT_BITS]
  have hlast : w.getID (2 ^ UINT_BITS) = some 0 := by
    rw [getID_of_idsInOrder w hids (2 ^ UINT_BITS) (by omega), Nat.mod_self]
  refine ⟨w, hrun, hlast, ?_, ?_, hone⟩
  · rw [hlast]
    intro heq
    have := Option.some.inj heq
    omega
  · rw [getID_of_idsInOrder w hids 1 (by omega), Nat.mod_eq_of_lt hone]

/-- C5, amended: in every state a program can reach from process start (copy
construction and copy assignment of subscribers included), the counter equals
the number of executions of `Subscriber()` so far modulo `2 ^ 32`, so it starts
at zero and the next execution of `Subscriber()` gives its object that number;
a subscriber built by the `d`-th execution (counting from 0) and never
overwritten by a copy assignment has `getID() = d mod 2 ^ 32`, hence `d` while
`d < 2 ^ 32`; and then every such subscriber constructed earlier has a strictly
smaller identifier.  Nothing is said about copies. -/
theorem C5_id_is_construction_number_mod (fuel : Nat) (prog : List Stmt) (w : World)
    (h : run fuel World.init prog = .ok w) (k d : Nat)
    (hk : (provenance Provenance.init prog).origin[k]? = some (some d)) :
    w.runningID = (provenance Provenance.init prog).defaultCtors % 2 ^ UINT_BITS ∧
    (∀ cls, (Subscriber.construct w cls).1.getID (Subscriber.construct w cls).2
      = some ((provenance Provenance.init prog).defaultCtors % 2 ^ UINT_BITS)) ∧
    w.getID k = some (d % 2 ^ UINT_BITS) ∧
    (d < 2 ^ UINT_BITS → w.getID k = some d) ∧
    (d < 2 ^ UINT_BITS → ∀ k1 d1 : Nat,
      (provenance Provenance.init prog).origin[k1]? = some (some d1) → k1 < k →
      d1 < d ∧ ∃ x y, w.getID k1 = some x ∧ w.getID k = some y ∧ x < y) := by
  have hinv := reachable_idsTracked fuel prog w h
  have hgk := getID_of_idsTracked w _ hinv k d hk
  refine ⟨hinv.1, ?_, hgk, ?_, ?_⟩
  · intro cls
    simp [World.getID, Subscriber.construct, Subscriber.getID, hinv.1]
  · intro hlt
    rw [hgk, Nat.mod_eq_of_lt hlt]
  · intro hlt k1 d1 hk1 hlt1
    have hd1 := hinv.2.2.2 k1 k d1 d hlt1 hk1 hk
    refine ⟨hd1, _, _, getID_of_idsTracked w _ hinv k1 d1 hk1, hgk, ?_⟩
    rw [Nat.mod_eq_of_lt hlt, Nat.mod_eq_of_lt (by omega)]
    exact hd1

/-- C5 (amended) on `copyingProgram`: `c` (address 2) was built by execution
number 1 of `Subscriber()` and has identifier 1. -/
theorem C5_witness :
    copiedSubs.runningID = (provenance Provenance.init copyingProgram).defaultCtors
      % 2 ^ UINT_BITS ∧
    copiedSubs.getID 2 = some (1 % 2 ^ UINT_BITS) ∧
    (1 < 2 ^ UINT_BITS → copiedSubs.getID 2 = some 1) := by
  obtain ⟨h1, _, h3, h4, _⟩ :=
    C5_id_is_construction_number_mod 0 copyingProgram copiedSubs (by decide) 2 1 (by decide)
  exact ⟨h1, h3, h4⟩

/-! ## C6: publishing does not mutate the message -/

/-- C6: for a live message `M` whose entries are live subscribers,
`M.notify()` returns and leaves the message store as it was (so `M`'s
subscriber sequence and name are unchanged); a second `M.notify()` right after
makes the same invocations and the same output as the first. -/
theorem C6_notify_does_not_mutate (fuel : Nat) (w : World) (this : MsgPtr) (m : MessageBase)
    (hm : w.msgs[this]? = some m) (hv : w.validSubs m.subscribers)
    (hfuel : m.subscribers.length < fuel) :
    ∃ w1 w2 trace out,
      MessageBase.notify fuel w this = .ok w1 ∧
      w1.msgs = w.msgs ∧
      w1.subscribersOf this = some m.subscribers ∧
      w1.nameOf this = some m.name ∧
      MessageBase.notify fuel w1 this = .ok w2 ∧
      w1.calls = w.calls ++ trace ∧ w2.calls = w1.calls ++ trace ∧
      w1.cout = w.cout ++ out ∧ w2.cout = w1.cout ++ out := by
  have h1 := publish_eq fuel w this m hm hv hfuel
  have h2 := publish_eq fuel (w.published this m m.subscribers) this m hm hv hfuel
  refine ⟨_, _, invocations this m.subscribers, outputOf w.subs m m.subscribers, h1, rfl, ?_, ?_,
    h2, rfl, rfl, rfl, rfl⟩
  · simp [World.subscribersOf, published_msgs, hm]
  · simp [World.nameOf, published_msgs, hm]

/-- C6 on `main`'s `message3 = [sub1, sub2, sub3]`. -/
theorem C6_witness :
    ∃ w1 w2 trace out,
      MessageBase.notify 4 mainSetup 2 = .ok w1 ∧
      w1.msgs = mainSetup.msgs ∧
      w1.subscribersOf 2 = some [0, 1, 2] ∧
      w1.nameOf 2 = some "TestMessage1" ∧
      MessageBase.notify 4 w1 2 = .ok w2 ∧
      w1.calls = mainSetup.calls ++ trace ∧ w2.calls = w1.calls ++ trace ∧
      w1.cout = mainSetup.cout ++ out ∧ w2.cout = w1.cout ++ out :=
  C6_notify_does_not_mutate 4 mainSetup 2 ⟨[0, 1, 2], "TestMessage1", .TestMessage1⟩
    (by decide) (by decide) (by decide)

/-! ## C7: `addSubscriber` appends -/

/-- C7: for a live message `M` with sequence `L` and any pointer `s` (already
in `L` or not), `M.addSubscriber(s)` returns and the sequence becomes
`L ++ [s]`: old entries keep their positions, `s` is last, the length grows by
one, and the name is unchanged. -/
theorem C7_addSubscriber_appends (w : World) (this : MsgPtr) (m : MessageBase) (s : SubPtr)
    (hm : w.msgs[this]? = some m) :
    ∃ w1 L1,
      MessageBase.addSubscriber w this s = .ok w1 ∧
      w1.subscribersOf this = some L1 ∧
      L1 = m.subscribers ++ [s] ∧
      (∀ i, i < m.subscribers.length → L1[i]? = m.subscribers[i]?) ∧
      L1[m.subscribers.length]? = some s ∧
      L1.length = m.subscribers.length + 1 ∧
      w1.nameOf this = some m.name := by
  refine ⟨_, m.subscribers ++ [s], addSubscriber_eq w this s m hm, ?_, rfl, ?_, ?_, ?_, ?_⟩
  · simp [World.subscribersOf, store_get_self w this m _ hm]
  · intro i hi
    exact List.getElem?_append_left hi
  · simp
  · simp
  · simp [World.nameOf, store_get_self w this m _ hm]

/-- C7 on `main`'s `message1 = [sub1]`, adding `sub1` a second time. -/
theorem C7_witness :
    ∃ w1 L1,
      MessageBase.addSubscriber mainSetup 0 0 = .ok w1 ∧
      w1.subscribersOf 0 = some L1 ∧
      L1 = [0] ++ [0] ∧
      (∀ i, i < [0].length → L1[i]? = [0][i]?) ∧
      L1[[0].length]? = some 0 ∧
      L1.length = [0].length + 1 ∧
      w1.nameOf 0 = some "TestMessage1" :=
  C7_addSubscriber_appends mainSetup 0 ⟨[0], "TestMessage1", .TestMessage1⟩ 0 (by decide)

/-! ## C8: duplicate registrations are delivered -/

theorem count_invocations (this : MsgPtr) (s : SubPtr) (ss : List SubPtr) :
    (invocations this ss).count (s, this) = ss.count s := by
  induction ss with
  | nil => rfl
  | cons x xs ih =>
    simp only [invocations, List.map_cons, List.count_cons] at ih ⊢
    rw [ih]
    by_cases hx : x = s <;> simp [hx]

theorem getElem?_invocations (this : MsgPtr) (s : SubPtr) (ss : List SubPtr) (i : Nat) :
    (invocations this ss)[i]? = some (s, this) ↔ ss[i]? = some s := by
  simp only [invocations, List.getElem?_map]
  cases ss[i]? <;> simp

/-- C8: on a freshly constructed message `M`, after any run of `addSubscriber`
calls with live subscribers (repetitions allowed), one `M.notify()` makes
exactly as many invocations `s.notify(M)` as `s` was added, at the positions at
which `s` was added, and as many invocations in total as there are entries. -/
theorem C8_duplicates_are_delivered (fuel : Nat) (w : World) (c : MessageCtor)
    (ss : List SubPtr) (s : SubPtr) (hv : w.validSubs ss) (hfuel : ss.length < fuel) :
    ∃ w1 w2 tr,
      run fuel (MessageBase.construct w c).1
          (ss.map (Stmt.addSubscriber (MessageBase.construct w c).2)) = .ok w1 ∧
      w1.subscribersOf (MessageBase.construct w c).2 = some ss ∧
      MessageBase.notify fuel w1 (MessageBase.construct w c).2 = .ok w2 ∧
      w2.calls = w1.calls ++ tr ∧
      tr.count (s, (MessageBase.construct w c).2) = ss.count s ∧
      (∀ i : Nat, tr[i]? = some (s, (MessageBase.construct w c).2) ↔ ss[i]? = some s) ∧
      tr.length = ss.length := by
  have hget := construct_get w c
  have hrun := run_addSubscriber fuel (MessageBase.construct w c).2 ss _ _ hget
  rw [build_subscribers, List.nil_append] at hrun
  have hget1 := store_get_self _ _ _ { c.build with subscribers := ss } hget
  refine ⟨_, _, invocations (MessageBase.construct w c).2 ss, hrun, ?_,
    publish_eq fuel _ _ _ hget1 hv hfuel, rfl, count_invocations _ s ss,
    fun i => getElem?_invocations _ s ss i, ?_⟩
  · simp [World.subscribersOf, hget1]
  · simp [invocations]

/-- C8 with `sub1` registered twice around `sub2` on a fresh `TestMessage1`. -/
theorem C8_witness :
    ∃ w1 w2 tr,
      run 4 (MessageBase.construct threeSubs .TestMessage1).1
          ([0, 1, 0].map (Stmt.addSubscriber (MessageBase.construct threeSubs .TestMessage1).2))
        = .ok w1 ∧
      w1.subscribersOf (MessageBase.construct threeSubs .TestMessage1).2 = some [0, 1, 0] ∧
      MessageBase.notify 4 w1 (MessageBase.construct threeSubs .TestMessage1).2 = .ok w2 ∧
      w2.calls = w1.calls ++ tr ∧
      tr.count (0, (MessageBase.construct threeSubs .TestMessage1).2) = [0, 1, 0].count 0 ∧
      (∀ i : Nat, tr[i]? = some (0, (MessageBase.construct threeSubs .TestMessage1).2) ↔
        [0, 1, 0][i]? = some 0) ∧
      tr.length = [0, 1, 0].length :=
  C8_duplicates_are_delivered 4 threeSubs .TestMessage1 [0, 1, 0] 0 (by decide) (by decide)

/-! ## C9: publishing without subscribers -/

/-- C9: `notify()` on a live message with an empty subscriber sequence returns
the state it was given: no invocation, no output, no fault, no change.  This
covers a freshly constructed message (any constructor) and a message that has
just copied the sequence of a message without subscribers. -/
theorem C9_publish_without_subscribers (fuel : Nat) (w : World) (this : MsgPtr)
    (m : MessageBase) (hm : w.msgs[this]? = some m) (hempty : m.subscribers = [])
    (hfuel : 0 < fuel) :
    MessageBase.notify fuel w this = .ok w ∧
    (∀ c : MessageCtor,
      MessageBase.notify fuel (MessageBase.construct w c).1 (MessageBase.construct w c).2
        = .ok (MessageBase.construct w c).1) ∧
    (∀ (b : MsgPtr) (mB : MessageBase), w.msgs[b]? = some mB →
      ∃ w1, MessageBase.copySubscribers w b this = .ok w1 ∧
        w1.subscribersOf b = some [] ∧
        MessageBase.notify fuel w1 b = .ok w1) := by
  have key : ∀ (v : World) (q : MsgPtr) (x : MessageBase), v.msgs[q]? = some x →
      x.subscribers = [] → MessageBase.notify fuel v q = .ok v := by
    intro v q x hx he
    have h := publish_eq fuel v q x hx (by rw [he]; intro p hp; cases hp) (by rw [he]; exact hfuel)
    rw [h, he, published_nil]
  refine ⟨key w this m hm hempty, ?_, ?_⟩
  · intro c
    exact key _ _ _ (construct_get w c) (build_subscribers c)
  · intro b mB hB
    have hb1 := store_get_self w b mB { mB with subscribers := m.subscribers } hB
    refine ⟨_, copySubscribers_eq w b this mB m hB hm, ?_, key _ b _ hb1 hempty⟩
    rw [World.subscribersOf, hb1]
    simp [hempty]

/-- C9 on `main`'s `message4` before it copies any subscribers. -/
theorem C9_witness :
    MessageBase.notify 1 mainWithMessage4 3 = .ok mainWithMessage4 ∧
    (∀ c : MessageCtor,
      MessageBase.notify 1 (MessageBase.construct mainWithMessage4 c).1
          (MessageBase.construct mainWithMessage4 c).2
        = .ok (MessageBase.construct mainWithMessage4 c).1) ∧
    (∀ (b : MsgPtr) (mB : MessageBase), mainWithMessage4.msgs[b]? = some mB →
      ∃ w1, MessageBase.copySubscribers mainWithMessage4 b 3 = .ok w1 ∧
        w1.subscribersOf b = some [] ∧
        MessageBase.notify 1 w1 b = .ok w1) :=
  C9_publish_without_subscribers 1 mainWithMessage4 3
    ⟨[], "DynamicMessage", .DynamicMessage "Hello World"⟩ (by decide) rfl (by decide)

/-! ## C10: messages a subscriber does not recognise -/

/-- C10, refuted as stated: a `VoltageAlertHandler` notified of a `TestMessage1`
(not a `TransformerAlert`) returns without inserting anything into `cout`; in
particular nothing derived from `getName()` is produced. -/
theorem C10_counterexample :
    handlerAndTestMessage.subs[0]? = some ⟨0, .VoltageAlertHandler "pager:123123123"⟩ ∧
    handlerAndTestMessage.msgs[0]? = some ⟨[], "TestMessage1", .TestMessage1⟩ ∧
    MessageClass.TestMessage1.castTransformerAlert = false ∧
    handlerAndTestMessage.cout = [] ∧
    ∃ w1, Subscriber.notify handlerAndTestMessage 0 0 = .ok w1 ∧ w1.cout = [] := by
  refine ⟨by decide, by decide, by decide, by decide, ?_⟩
  exact ⟨{ handlerAndTestMessage with calls := [(0, 0)] }, by decide, by decide⟩

/-- C10, amended: notifying a subscriber of a live message it does not recognise
never faults.  A `NamedSubscriber` given a message that is not a
`DynamicMessage` performs the generic handling: after its banner it prints
`Received polymorphic message.  message name = ` followed by `getName()`.  A
`VoltageAlertHandler` given a message outside the `TransformerAlert` hierarchy
ignores it: it returns the state unchanged, with no output. -/
theorem C10_unrecognised_message_handling (w : World) (pMessage : MsgPtr) (m : MessageBase)
    (hm : w.msgs[pMessage]? = some m) :
    (∀ subscriberName : String, m.cls.castDynamicMessage = none →
      NamedSubscriber.notify w subscriberName pMessage
        = .ok (w.print [.str "Subscriber(", .str subscriberName, .str ") notify fired:",
            .str "Received polymorphic message.  message name = ", .str m.getName, .endl])) ∧
    (∀ sendTo : String, m.cls.castTransformerAlert = false →
      VoltageAlertHandler.notify w sendTo pMessage = .ok w) := by
  constructor
  · intro n hcast
    simp [NamedSubscriber.notify, World.print, hm, hcast]
  · intro t hcast
    simp [VoltageAlertHandler.notify, hm, hcast]

/-- C10 (amended) on `main`'s `message1` (a `TestMessage1`). -/
theorem C10_witness :
    (∀ subscriberName : String, MessageClass.TestMessage1.castDynamicMessage = none →
      NamedSubscriber.notify mainSetup subscriberName 0
        = .ok (mainSetup.print [.str "Subscriber(", .str subscriberName,
            .str ") notify fired:", .str "Received polymorphic message.  message name = ",
            .str "TestMessage1", .endl])) ∧
    (∀ sendTo : String, MessageClass.TestMessage1.castTransformerAlert = false →
      VoltageAlertHandler.notify mainSetup sendTo 0 = .ok mainSetup) :=
  C10_unrecognised_message_handling mainSetup 0 ⟨[0], "TestMessage1", .TestMessage1⟩
    (by decide)

/-! ## C11: what `NamedSubscriber::notify` prints -/

theorem render_dynamic (fmt : Option CFloat → String) (n p : String) :
    render fmt [.str "Subscriber(", .str n, .str ") notify fired:",
        .str "Received dynamic message.  string=", .str p, .endl]
      = "Subscriber(" ++ n ++ ") notify fired:Received dynamic message.  string=" ++ p
          ++ endlText := by
  have hlit : ") notify fired:Received dynamic message.  string="
      = ") notify fired:" ++ "Received dynamic message.  string=" := by decide
  simp only [render, OutItem.text, String.append_empty, hlit, String.append_assoc]

theorem render_polymorphic (fmt : Option CFloat → String) (n g : String) :
    render fmt [.str "Subscriber(", .str n, .str ") notify fired:",
        .str "Received polymorphic message.  message name = ", .str g, .endl]
      = "Subscriber(" ++ n ++ ") notify fired:Received polymorphic message.  message name = "
          ++ g ++ endlText := by
  have hlit : ") notify fired:Received polymorphic message.  message name = "
      = ") notify fired:" ++ "Received polymorphic message.  message name = " := by decide
  simp only [render, OutItem.text, String.append_empty, hlit, String.append_assoc]

/-- C11: `NamedSubscriber(n).notify` on a live message returns, having inserted
into `cout` exactly one line.  For a `DynamicMessage` carrying `p` (whatever its
name) the line is `Subscriber(n) notify fired:Received dynamic message.  string=p`;
for every other message it is
`Subscriber(n) notify fired:Received polymorphic message.  message name = `
followed by `getName()`.  In `main`, `message4 = DynamicMessage("Hello World")`
with the subscribers of `message3` invokes `sub1, sub2, sub3` in that order and
prints the `string=Hello World` line once for each. -/
theorem C11_namedSubscriber_output (fmt : Option CFloat → String) (w : World)
    (pMessage : MsgPtr) (m : MessageBase) (n : String) (hm : w.msgs[pMessage]? = some m) :
    (∃ out, NamedSubscriber.notify w n pMessage = .ok (w.print out) ∧
      (∀ p, m.cls = .DynamicMessage p →
        render fmt out
          = "Subscriber(" ++ n ++ ") notify fired:Received dynamic message.  string=" ++ p
              ++ endlText) ∧
      ((∀ p, m.cls ≠ .DynamicMessage p) →
        render fmt out
          = "Subscriber(" ++ n
              ++ ") notify fired:Received polymorphic message.  message name = "
              ++ m.getName ++ endlText)) ∧
    (∃ w4, run 4 mainWithMessage4 [.copySubscribers 3 2, .notify 3] = .ok w4 ∧
      w4.calls = [(0, 3), (1, 3), (2, 3)] ∧
      render fmt w4.cout
        = "Subscriber(sub1) notify fired:Received dynamic message.  string=Hello World"
            ++ endlText
            ++ "Subscriber(sub2) notify fired:Received dynamic message.  string=Hello World"
            ++ endlText
            ++ "Subscriber(sub3) notify fired:Received dynamic message.  string=Hello World"
            ++ endlText) := by
  constructor
  · cases hc : m.cls.castDynamicMessage with
    | some q =>
      refine ⟨[.str "Subscriber(", .str n, .str ") notify fired:",
        .str "Received dynamic message.  string=", .str q, .endl], ?_, ?_, ?_⟩
      · simp [NamedSubscriber.notify, World.print, hm, hc]
      · intro p hp
        rw [hp] at hc
        simp only [MessageClass.castDynamicMessage, Option.some.injEq] at hc
        rw [← hc]
        exact render_dynamic fmt n p
      · intro hne
        cases hcls : m.cls <;> simp [hcls, MessageClass.castDynamicMessage] at hc
        exact absurd hcls (hne _)
    | none =>
      refine ⟨[.str "Subscriber(", .str n, .str ") notify fired:",
        .str "Received polymorphic message.  message name = ", .str m.getName, .endl],
        ?_, ?_, ?_⟩
      · simp [NamedSubscriber.notify, World.print, hm, hc]
      · intro p hp
        rw [hp] at hc
        simp [MessageClass.castDynamicMessage] at hc
      · intro _
        exact render_polymorphic fmt n m.getName
  · have hrun : run 4 mainWithMessage4 [.copySubscribers 3 2, .notify 3]
        = .ok ((mainWithMessage4.store 3
            ⟨[0, 1, 2], "DynamicMessage", .DynamicMessage "Hello World"⟩).published 3
            ⟨[0, 1, 2], "DynamicMessage", .DynamicMessage "Hello World"⟩ [0, 1, 2]) := by
      decide
    refine ⟨_, hrun, by decide, ?_⟩
    have hcout : ((mainWithMessage4.store 3
            ⟨[0, 1, 2], "DynamicMessage", .DynamicMessage "Hello World"⟩).published 3
            ⟨[0, 1, 2], "DynamicMessage", .DynamicMessage "Hello World"⟩ [0, 1, 2]).cout
        = [.str "Subscriber(", .str "sub1", .str ") notify fired:",
           .str "Received dynamic message.  string=", .str "Hello World", .endl,
           .str "Subscriber(", .str "sub2", .str ") notify fired:",
           .str "Received dynamic message.  string=", .str "Hello World", .endl,
           .str "Subscriber(", .str "sub3", .str ") notify fired:",
           .str "Received dynamic message.  string=", .str "Hello World", .endl] := by
      decide
    rw [hcout]
    simp only [render, OutItem.text]
    set_option maxRecDepth 8000 in decide

/-- C11 on `main`'s `message4` (fresh, address 3) and the name `sub1`. -/
theorem C11_witness :
    ∃ out, NamedSubscriber.notify mainWithMessage4 "sub1" 3 = .ok (mainWithMessage4.print out) ∧
      render (fun _ => "") out
        = "Subscriber(" ++ "sub1" ++ ") notify fired:Received dynamic message.  string="
            ++ "Hello World" ++ endlText := by
  obtain ⟨⟨out, hnotify, hdyn, _⟩, _⟩ :=
    C11_namedSubscriber_output (fun _ => "") mainWithMessage4 3
      ⟨[], "DynamicMessage", .DynamicMessage "Hello World"⟩ "sub1" (by decide)
  exact ⟨out, hnotify, hdyn "Hello World" rfl⟩

/-! ## C12: `setName` / `getName` -/

/-- C12: for a live message `M` whose entries are live subscribers and any
string `n`, `M.setName(n)` returns; afterwards `getName()` is `n`, the
subscriber sequence is what it was, and `M.notify()` makes exactly the
invocations it would have made before the call (same subscribers, same order,
same multiplicities). -/
theorem C12_setName_is_plain_mutator (fuel : Nat) (w : World) (this : MsgPtr)
    (m : MessageBase) (n : String) (hm : w.msgs[this]? = some m)
    (hv : w.validSubs m.subscribers) (hfuel : m.subscribers.length < fuel) :
    ∃ w1 m1,
      MessageBase.setName w this n = .ok w1 ∧
      w1.msgs[this]? = some m1 ∧ m1.getName = n ∧
      m1.subscribers = m.subscribers ∧ m1.cls = m.cls ∧
      w1.calls = w.calls ∧
      ∃ wBefore wAfter tr,
        MessageBase.notify fuel w this = .ok wBefore ∧
        MessageBase.notify fuel w1 this = .ok wAfter ∧
        wBefore.calls = w.calls ++ tr ∧ wAfter.calls = w1.calls ++ tr := by
  have hget := store_get_self w this m { m with name := n } hm
  refine ⟨_, { m with name := n }, setName_eq w this n m hm, hget, rfl, rfl, rfl, rfl,
    _, _, invocations this m.subscribers, publish_eq fuel w this m hm hv hfuel,
    publish_eq fuel _ this { m with name := n } hget hv hfuel, rfl, rfl⟩

/-- C12 on `main`'s `message3 = [sub1, sub2, sub3]`, renamed to `renamed`. -/
theorem C12_witness :
    ∃ w1 m1,
      MessageBase.setName mainSetup 2 "renamed" = .ok w1 ∧
      w1.msgs[2]? = some m1 ∧ m1.getName = "renamed" ∧
      m1.subscribers = [0, 1, 2] ∧ m1.cls = .TestMessage1 ∧
      w1.calls = mainSetup.calls ∧
      ∃ wBefore wAfter tr,
        MessageBase.notify 4 mainSetup 2 = .ok wBefore ∧
        MessageBase.notify 4 w1 2 = .ok wAfter ∧
        wBefore.calls = mainSetup.calls ++ tr ∧ wAfter.calls = w1.calls ++ tr :=
  C12_setName_is_plain_mutator 4 mainSetup 2 ⟨[0, 1, 2], "TestMessage1", .TestMessage1⟩
    "renamed" (by decide) (by decide) (by decide)

/-! ## C13: `OvervoltageAlert::notify(float)` -/

/-- The state `alertSetup` is what lines 229-239 of `main` produce from process
start. -/
theorem alertSetup_reached :
    run 0 World.init
      [.newSubscriber (.VoltageAlertHandler "mailto:crises@electrical-company.com"),
       .newSubscriber (.VoltageAlertHandler "pager:123123123"),
       .newSubscriber (.VoltageAlertHandler "http://www.electrical-company.com"),
       .newMessage (.OvervoltageAlert "transformer_id_1"),
       .addSubscriber 0 0, .addSubscriber 0 1, .addSubscriber 0 2]
      = .ok alertSetup := by
  decide

/-- C13: for a live `OvervoltageAlert` `A` (transformer `t`, any earlier voltage
`old`, set or not) whose entries are live subscribers, and any `v`:
`A.notify(v)` returns and makes exactly the invocations `MessageBase::notify()`
makes on `A` (one per entry, in order).  It is the base loop started in the
state where `A` already stores `v`; the message store does not change during
the loop, so `A` stores `v` at every invocation and at the end, the output is
the one the subscribers produce for `A` with voltage `v`, and `alertText()` on
it prints `v`. -/
theorem C13_overload_delegates (fuel : Nat) (w : World) (this : MsgPtr) (m : MessageBase)
    (t : String) (old : Option CFloat) (v : CFloat) (hm : w.msgs[this]? = some m)
    (hcls : m.cls = .OvervoltageAlert t old) (hv : w.validSubs m.subscribers)
    (hfuel : m.subscribers.length < fuel) :
    ∃ wV wBase tr mV,
      OvervoltageAlert.notify fuel w this v = .ok wV ∧
      MessageBase.notify fuel w this = .ok wBase ∧
      tr = m.subscribers.map (fun s => (s, this)) ∧
      wV.calls = w.calls ++ tr ∧ wBase.calls = w.calls ++ tr ∧
      mV = { m with cls := .OvervoltageAlert t (some v) } ∧
      (w.store this mV).msgs[this]? = some mV ∧
      OvervoltageAlert.notify fuel w this v
        = MessageBase.notifyLoop fuel (w.store this mV) this 0 ∧
      wV.msgs = (w.store this mV).msgs ∧
      wV.cout = w.cout ++ outputOf w.subs mV m.subscribers ∧
      TransformerAlert.alertText mV.cls
        = [.str "Over voltage by ", .flt (some v), .str " alert from Transformer ", .str t,
           .endl] := by
  have hget := store_get_self w this m { m with cls := .OvervoltageAlert t (some v) } hm
  have hdef : OvervoltageAlert.notify fuel w this v
      = MessageBase.notifyLoop fuel
          (w.store this { m with cls := .OvervoltageAlert t (some v) }) this 0 := by
    simp [OvervoltageAlert.notify, hm, hcls, MessageBase.notify]
  have hpub := publish_eq fuel (w.store this { m with cls := .OvervoltageAlert t (some v) })
    this { m with cls := .OvervoltageAlert t (some v) } hget hv hfuel
  refine ⟨_, _, m.subscribers.map (fun s => (s, this)),
    { m with cls := .OvervoltageAlert t (some v) }, hdef.trans hpub,
    publish_eq fuel w this m hm hv hfuel, rfl, rfl, rfl, rfl, hget, hdef, rfl, rfl, rfl⟩

/-- C13 on `T1OV_alert` with its three handlers and the voltage of `main`'s
second alarm (an arbitrary bit pattern stands for the `float`). -/
theorem C13_witness :
    ∃ wV wBase tr,
      OvervoltageAlert.notify 4 alertSetup 0 ⟨200000⟩ = .ok wV ∧
      MessageBase.notify 4 alertSetup 0 = .ok wBase ∧
      tr = [(0, 0), (1, 0), (2, 0)] ∧
      wV.calls = alertSetup.calls ++ tr ∧ wBase.calls = alertSetup.calls ++ tr ∧
      wV.msgs = [⟨[0, 1, 2], "OvervoltageAlert", .OvervoltageAlert "transformer_id_1"
        (some ⟨200000⟩)⟩] := by
  obtain ⟨wV, wBase, tr, mV, h1, h2, h3, h4, h5, h6, _, _, h9, _, _⟩ :=
    C13_overload_delegates 4 alertSetup 0
      ⟨[0, 1, 2], "OvervoltageAlert", .OvervoltageAlert "transformer_id_1" none⟩
      "transformer_id_1" none ⟨200000⟩ (by decide) rfl (by decide) (by decide)
  refine ⟨wV, wBase, tr, h1, h2, h3, h4, h5, ?_⟩
  rw [h9, h6]
  decide

/-! ## C14: what `copySubscribers` leaves alone -/

/-- C14: for live messages `A` (at `a`) and `B` (at `b`, possibly the same
object), `B.copySubscribers(A)` returns and changes only the subscriber sequence
of `B`: `B` keeps its name and its class with the class's own data, so both
run-time casts give on `B` what they gave before; `A` keeps its subscriber
sequence and name; every other message, the subscribers, the identifier
counter, `cout` and the invocation log are untouched; and with `a = b` the whole
state is unchanged. -/
theorem C14_copySubscribers_frame (w : World) (a b : MsgPtr) (mA mB : MessageBase)
    (hA : w.msgs[a]? = some mA) (hB : w.msgs[b]? = some mB) :
    ∃ w1 mB1,
      MessageBase.copySubscribers w b a = .ok w1 ∧
      w1.msgs[b]? = some mB1 ∧
      mB1.name = mB.name ∧ mB1.cls = mB.cls ∧
      mB1.cls.castDynamicMessage = mB.cls.castDynamicMessage ∧
      mB1.cls.castTransformerAlert = mB.cls.castTransformerAlert ∧
      TransformerAlert.alertText mB1.cls = TransformerAlert.alertText mB.cls ∧
      w1.subscribersOf a = some mA.subscribers ∧
      w1.nameOf a = some mA.name ∧
      (∀ q, q ≠ b → w1.msgs[q]? = w.msgs[q]?) ∧
      w1.subs = w.subs ∧ w1.runningID = w.runningID ∧
      w1.cout = w.cout ∧ w1.calls = w.calls ∧
      (a = b → w1 = w) := by
  have hget := store_get_self w b mB { mB with subscribers := mA.subscribers } hB
  refine ⟨_, { mB with subscribers := mA.subscribers }, copySubscribers_eq w b a mB mA hB hA,
    hget, rfl, rfl, rfl, rfl, rfl, ?_, ?_, ?_, rfl, rfl, rfl, rfl, ?_⟩
  · by_cases hab : a = b
    · subst hab
      simp [World.subscribersOf, hget]
    · simp [World.subscribersOf, store_get_ne w b a _ (Ne.symm hab), hA]
  · by_cases hab : a = b
    · subst hab
      have hsame : mA = mB := Option.some.inj (hA.symm.trans hB)
      rw [World.nameOf, hget, hsame]
      rfl
    · simp [World.nameOf, store_get_ne w b a _ (Ne.symm hab), hA]
  · intro q hq
    exact store_get_ne w b q _ (Ne.symm hq)
  · intro hab
    subst hab
    have hsame : mA = mB := Option.some.inj (hA.symm.trans hB)
    subst hsame
    exact store_same w a mA hA

/-- C14 at line 213 of `main`: `message4` (a `DynamicMessage`, address 3) copies
from `message3` (a `TestMessage1`, address 2). -/
theorem C14_witness :
    ∃ w1 mB1,
      MessageBase.copySubscribers mainWithMessage4 3 2 = .ok w1 ∧
      w1.msgs[3]? = some mB1 ∧
      mB1.name = "DynamicMessage" ∧ mB1.cls = .DynamicMessage "Hello World" ∧
      mB1.cls.castDynamicMessage = some "Hello World" ∧
      w1.subscribersOf 2 = some [0, 1, 2] ∧
      w1.nameOf 2 = some "TestMessage1" := by
  obtain ⟨w1, mB1, h1, h2, h3, h4, h5, _, _, h8, h9, _⟩ :=
    C14_copySubscribers_frame mainWithMessage4 2 3 ⟨[0, 1, 2], "TestMessage1", .TestMessage1⟩
      ⟨[], "DynamicMessage", .DynamicMessage "Hello World"⟩ (by decide) (by decide)
  exact ⟨w1, mB1, h1, h2, h3, h4, h5, h8, h9⟩

end PubSub
